import Mathlib

/-!
Shallow embedding of the VectorScope embedding-inversion attack engine
(vector store, evaluation contract, similarity / reconstruction / pattern
attacks) and proofs about the claims of its specification.

Modelling conventions:
* Python strings are embedded as `List Char` (the mutation code of the
  reconstruction attack works on `list(base)` anyway).
* `numpy` float vectors are embedded as `List ℝ`; float arithmetic is
  modelled by exact real arithmetic.
* The global `np.random` generator is embedded as an injected stream of
  naturals `ℕ → ℕ`; every primitive draw consumes the head of the stream.
  `np.random.randint(lo, hi)` is modelled as `lo + head % (hi - lo)`.
* The attacks only consume the vector store through its capability
  interface (`embed_text`, `embed_batch`, `compute_similarity`), so the
  attack combinators are parameterised by an abstract embedding function
  `embed : Text → V` and a similarity `sim : V → V → α` into a linear
  ordered field of scores; theorems about the concrete cosine similarity
  instantiate `α := ℝ` with `compute_similarity` below.
* Wall-clock durations are external inputs: each attack receives the
  elapsed time it stamps into its result as an oracle argument.
-/

namespace VectorScope

/-- Python strings, embedded as their character lists. -/
abbrev Text := List Char

/-- The state of the global `np.random` generator: an injected stream of
raw draws. -/
abbrev RNG := ℕ → ℕ

/-- Rest of a draw stream after consuming one value. -/
def rngTail (g : RNG) : RNG := fun n => g (n + 1)

/-- Model of `np.random.randint(lo, hi)`: a value in `[lo, hi)` plus the
remaining stream. -/
def randInt (g : RNG) (lo hi : ℕ) : ℕ × RNG :=
  (lo + g 0 % (hi - lo), rngTail g)

/-! ## Vector store (`vectorscope/storage/__init__.py`) -/

/-- Embedding vectors (`np.ndarray` of floats). -/
abbrev Vec := List ℝ

/-- Source: `np.dot(vec1, vec2)` for 1-d arrays. -/
noncomputable def dot (a b : Vec) : ℝ := (List.zipWith (fun x y => x * y) a b).sum

/-- Source: `np.linalg.norm(vec)`, the Euclidean norm. -/
noncomputable def norm (a : Vec) : ℝ := Real.sqrt (dot a a)

/-- Source: `VectorDatabase.compute_similarity`, literally
`np.dot(vec1, vec2) / (np.linalg.norm(vec1) * np.linalg.norm(vec2))` with
no guard of any kind on the inputs. -/
noncomputable def compute_similarity (vec1 vec2 : Vec) : ℝ :=
  dot vec1 vec2 / (norm vec1 * norm vec2)

/-- Elementwise negation `-v` of a numpy vector. -/
noncomputable def vecNeg (a : Vec) : Vec := a.map (fun x => -x)

/-- The spec's error taxonomy item relevant to the store: its
`DegenerateVectorError`. No such error exists anywhere in the code. -/
inductive VSError where
  | degenerateVector

/-- Modelled from the spec: the specified behaviour of
`compute_similarity` per the error-handling design, which demands a
`DegenerateVectorError` when either input has zero/near-zero norm
(near-zero modelled as exactly zero norm) and the cosine formula
otherwise. This definition exists only to be compared against the
code's `compute_similarity` above. -/
noncomputable def compute_similaritySpec (vec1 vec2 : Vec) : Except VSError ℝ :=
  if norm vec1 = 0 ∨ norm vec2 = 0 then Except.error VSError.degenerateVector
  else Except.ok (compute_similarity vec1 vec2)

/-- One persisted record of the ChromaDB collection: id, embedding,
document, and the metadata keys `store_text` merges in
(`original_text`, `text_length`) next to the caller-provided mapping. -/
structure StoredRecord where
  vecId : ℕ
  embedding : Vec
  document : Text
  original_text : Text
  text_length : ℕ
  userMetadata : List (String × String)

/-- Source: `VectorDatabase.store_text`. The fresh `uuid.uuid4()` is
modelled as an externally supplied identifier `newId`; the embedding of
the text is computed and the record appended to the collection. -/
def store_text (embed : Text → Vec) (db : List StoredRecord) (newId : ℕ)
    (text : Text) (metadata : List (String × String)) : ℕ × List StoredRecord :=
  (newId,
   db ++ [{ vecId := newId, embedding := embed text, document := text,
            original_text := text, text_length := text.length,
            userMetadata := metadata }])

/-- Source: `VectorDatabase.get_vector`: fetch by id, `none` when the
collection holds no record with that id. -/
def get_vector (db : List StoredRecord) (i : ℕ) : Option Vec :=
  (db.find? (fun r => r.vecId == i)).map StoredRecord.embedding

/-- Source: `VectorDatabase.embed_text`: embed without storing. -/
def embed_text (embed : Text → Vec) (text : Text) : Vec := embed text

/-! ## Evaluation contract (`attacks/base_attack.py`) -/

/-- The dictionary returned by `BaseAttack.evaluate`. The source calls
the second field `partial_accuracy`. -/
structure EvalResult where
  exact_match : Bool
  partAccuracy : ℚ
  extracted : Text
  ground_truth : Text

/-- Source: `BaseAttack.evaluate`: exact string equality, plus the
fraction of position-wise matches of the alphanumeric-only cleanings
over `max(len(truth_clean), 1)`. -/
def evaluate (extracted ground_truth : Text) : EvalResult :=
  let extracted_clean := extracted.filter Char.isAlphanum
  let truth_clean := ground_truth.filter Char.isAlphanum
  let char_matches := (extracted_clean.zip truth_clean).countP (fun p => p.1 == p.2)
  { exact_match := extracted == ground_truth
    partAccuracy := (char_matches : ℚ) / (max truth_clean.length 1 : ℚ)
    extracted := extracted
    ground_truth := ground_truth }

/-- Claim-side counting of agreeing positions: the number of indices
below both cleaned lengths at which the two cleaned strings agree,
stated independently of the `zip`/`countP` implementation. -/
def posMatchCount (a b : Text) : ℕ :=
  ((Finset.range (min a.length b.length)).filter
    (fun i => a.getD i 'a' = b.getD i 'b')).card

/-! ### Helper lemmas for the storage and evaluation claims -/

lemma dot_self_nonneg (a : Vec) : 0 ≤ dot a a := by
  induction a with
  | nil => simp [dot]
  | cons x xs ih =>
      simp only [dot, List.zipWith_cons_cons, List.sum_cons] at *
      exact add_nonneg (mul_self_nonneg x) ih

lemma dot_vecNeg_right (a b : Vec) : dot a (vecNeg b) = -(dot a b) := by
  induction a generalizing b with
  | nil => simp [dot, vecNeg]
  | cons x xs ih =>
      cases b with
      | nil => simp [dot, vecNeg]
      | cons y ys =>
          simp only [dot, vecNeg, List.map_cons, List.zipWith_cons_cons,
            List.sum_cons] at *
          rw [ih ys]; ring

lemma dot_vecNeg_vecNeg (a b : Vec) : dot (vecNeg a) (vecNeg b) = dot a b := by
  induction a generalizing b with
  | nil => simp [dot, vecNeg]
  | cons x xs ih =>
      cases b with
      | nil => simp [dot, vecNeg]
      | cons y ys =>
          simp only [dot, vecNeg, List.map_cons, List.zipWith_cons_cons,
            List.sum_cons] at *
          rw [ih ys]; ring

lemma norm_vecNeg (a : Vec) : norm (vecNeg a) = norm a := by
  unfold norm
  rw [dot_vecNeg_vecNeg]

lemma find?_append_fresh (db : List StoredRecord) (r : StoredRecord)
    (hfresh : ∀ q ∈ db, q.vecId ≠ r.vecId) :
    (db ++ [r]).find? (fun q => q.vecId == r.vecId) = some r := by
  induction db with
  | nil => simp [List.find?]
  | cons q qs ih =>
      have hq : (q.vecId == r.vecId) = false := by
        simpa using hfresh q (by simp)
      rw [List.cons_append, List.find?_cons_of_neg _ (by simp [hq])]
      exact ih (fun x hx => hfresh x (by simp [hx]))

lemma countP_zip_eq_posMatchCount (a b : Text) :
    (a.zip b).countP (fun p => p.1 == p.2) = posMatchCount a b := by
  induction a generalizing b with
  | nil => simp [posMatchCount]
  | cons x xs ih =>
      cases b with
      | nil => simp [posMatchCount]
      | cons y ys =>
          have hsucc : min (xs.length + 1) (ys.length + 1) = min xs.length ys.length + 1 :=
            Nat.succ_min_succ _ _
          simp only [List.zip_cons_cons, List.countP_cons, posMatchCount,
            List.length_cons, hsucc]
          rw [Finset.card_filter, Finset.sum_range_succ']
          simp only [List.getD_cons_succ, List.getD_cons_zero]
          rw [ih ys, posMatchCount, Finset.card_filter]
          by_cases hxy : x = y
          · simp [hxy]
          · have : (x == y) = false := by simpa using hxy
            simp [hxy, this]

/-! ## Theorems for the storage and evaluation claims (C5, C6, C8, C9) -/

/-- Claim C5: `evaluate` returns `exact_match` true iff the two strings
are identical, and its partial accuracy equals the number of positions
at which the alphanumeric-only cleanings agree divided by the length of
the cleaned ground truth (positions beyond the shorter cleaned string
never counting, since the position count ranges over the minimum of the
two cleaned lengths); when the cleaned ground truth is empty the result
is total and the partial accuracy is `0`. -/
theorem C5_evaluate_contract (extracted ground_truth : Text) :
    ((evaluate extracted ground_truth).exact_match = true ↔ extracted = ground_truth) ∧
    (ground_truth.filter Char.isAlphanum ≠ [] →
      (evaluate extracted ground_truth).partAccuracy =
        (posMatchCount (extracted.filter Char.isAlphanum)
            (ground_truth.filter Char.isAlphanum) : ℚ) /
          ((ground_truth.filter Char.isAlphanum).length : ℚ)) ∧
    (ground_truth.filter Char.isAlphanum = [] →
      (evaluate extracted ground_truth).partAccuracy = 0) := by
  refine ⟨?_, ?_, ?_⟩
  · simp [evaluate]
  · intro hne
    have hlen : 0 < (ground_truth.filter Char.isAlphanum).length :=
      List.length_pos.mpr hne
    have h1 : (1 : ℚ) ≤ ((ground_truth.filter Char.isAlphanum).length : ℚ) := by
      exact_mod_cast hlen
    simp only [evaluate, countP_zip_eq_posMatchCount, max_eq_left h1]
  · intro hnil
    simp [evaluate, hnil]

/-- Witness for C5 at `evaluate "ab" "ax"`: exact match fails and the
partial accuracy is `1/2`. -/
theorem C5_evaluate_contract_witness :
    (evaluate ['a', 'b'] ['a', 'x']).partAccuracy =
      (posMatchCount (['a', 'b'].filter Char.isAlphanum)
          (['a', 'x'].filter Char.isAlphanum) : ℚ) /
        (((['a', 'x'] : Text).filter Char.isAlphanum).length : ℚ) :=
  (C5_evaluate_contract ['a', 'b'] ['a', 'x']).2.1 (by decide)

/-- Counterexample for claim C6: the code's `compute_similarity` has no
degenerate-vector guard whatsoever. On the zero vector, where the spec
demands `Except.error DegenerateVectorError`, the code unconditionally
evaluates the formula `dot / (norm * norm)` and produces a float value
(`nan` under IEEE semantics, the real `0` under the exact model here) —
it does not fail. -/
theorem C6_compute_similarity_counterexample :
    compute_similaritySpec [(0 : ℝ)] [(0 : ℝ)] = Except.error VSError.degenerateVector ∧
    compute_similarity [(0 : ℝ)] [(0 : ℝ)] = 0 := by
  have hd : dot [(0 : ℝ)] [(0 : ℝ)] = 0 := by norm_num [dot]
  have hn : norm [(0 : ℝ)] = 0 := by
    rw [norm, hd, Real.sqrt_zero]
  constructor
  · rw [compute_similaritySpec, if_pos (Or.inl hn)]
  · rw [compute_similarity, hd, zero_div]

/-- Claim C6 (amended): `compute_similarity` performs no zero-norm check
and never raises: it is the unguarded cosine formula on every input. On
inputs of nonzero norm it agrees with the spec's guarded version; on a
zero-norm input the guarded version errors while the code still
evaluates the division (NaN in the float code, see the counterexample). -/
theorem C6_compute_similarity_amended (vec1 vec2 : Vec)
    (h1 : norm vec1 ≠ 0) (h2 : norm vec2 ≠ 0) :
    compute_similaritySpec vec1 vec2 = Except.ok (compute_similarity vec1 vec2) := by
  rw [compute_similaritySpec, if_neg]
  rintro (h | h)
  · exact h1 h
  · exact h2 h

/-- Witness for the amended C6 at the unit vector `[1]`. -/
theorem C6_compute_similarity_amended_witness :
    compute_similaritySpec [(1 : ℝ)] [(1 : ℝ)] =
      Except.ok (compute_similarity [(1 : ℝ)] [(1 : ℝ)]) := by
  have hn : norm [(1 : ℝ)] = 1 := by
    have : dot [(1 : ℝ)] [(1 : ℝ)] = 1 := by norm_num [dot]
    rw [norm, this, Real.sqrt_one]
  exact C6_compute_similarity_amended [(1 : ℝ)] [(1 : ℝ)]
    (by rw [hn]; norm_num) (by rw [hn]; norm_num)

/-- Claim C8: retrieving the vector stored by `store_text t m` via
`get_vector` of the returned id yields exactly the vector `embed_text t`
(exact equality in the real-valued model, which subsumes the claimed
elementwise tolerance), provided the fresh identifier does not collide
with a stored record — the model of `uuid.uuid4()` freshness. -/
theorem C8_store_roundtrip (embed : Text → Vec) (db : List StoredRecord) (newId : ℕ)
    (t : Text) (m : List (String × String))
    (hfresh : ∀ r ∈ db, r.vecId ≠ newId) :
    get_vector (store_text embed db newId t m).2 (store_text embed db newId t m).1 =
      some (embed_text embed t) := by
  exact congrArg (Option.map StoredRecord.embedding)
    (find?_append_fresh db
      { vecId := newId, embedding := embed t, document := t,
        original_text := t, text_length := t.length, userMetadata := m }
      (by simpa using hfresh))

/-- Witness for C8: a round trip on the empty store. -/
theorem C8_store_roundtrip_witness :
    get_vector (store_text (fun _ => [(1 : ℝ)]) [] 0 ['h', 'i'] []).2
        (store_text (fun _ => [(1 : ℝ)]) [] 0 ['h', 'i'] []).1 =
      some (embed_text (fun _ => [(1 : ℝ)]) ['h', 'i']) :=
  C8_store_roundtrip (fun _ => [(1 : ℝ)]) [] 0 ['h', 'i'] [] (by simp)

/-- Claim C9: for every vector of nonzero norm (the spec's §4.1 restricts
the domain of `compute_similarity` to such vectors; the zero-norm case is
the subject of C6), the self-similarity is exactly `1` and the similarity
with the elementwise negation is exactly `-1`; exact equality subsumes
the claimed `1e-6` tolerance. -/
theorem C9_self_similarity (v : Vec) (hv : dot v v ≠ 0) :
    compute_similarity v v = 1 ∧ compute_similarity v (vecNeg v) = -1 := by
  have h0 : 0 ≤ dot v v := dot_self_nonneg v
  have hs : norm v * norm v = dot v v := Real.mul_self_sqrt h0
  constructor
  · rw [compute_similarity, hs]
    exact div_self hv
  · rw [compute_similarity, norm_vecNeg, hs, dot_vecNeg_right, neg_div,
      div_self hv]

/-- Witness for C9 at the vector `[1]`. -/
theorem C9_self_similarity_witness :
    compute_similarity [(1 : ℝ)] [(1 : ℝ)] = 1 ∧
    compute_similarity [(1 : ℝ)] (vecNeg [(1 : ℝ)]) = -1 :=
  C9_self_similarity [(1 : ℝ)] (by norm_num [dot])

/-! ## Attack result and the similarity attack (`attacks/similarity_attack.py`)

The attacks consume the store only through its capability interface, so
they are parameterised by an abstract embedding `embed : Text → V` and an
abstract similarity score `sim : V → V → α` into a linear ordered field. -/

/-- The `AttackResult` dataclass of `attacks/base_attack.py` (the
attack-specific diagnostic `metadata` mapping is presentation data not
touched by any claim and is not modelled). -/
structure AttackResult (α : Type) where
  success : Bool
  extracted_text : Option Text
  confidence : α
  method : String
  num_queries : ℕ
  time_seconds : ℚ

/-- Scan of `np.argmax`: current best index and value, updated only on a
strictly larger value, so the first occurrence of the maximum wins. -/
def argmaxAux {α : Type} [LinearOrder α] : List α → ℕ → ℕ → α → ℕ × α
  | [], _, bi, bv => (bi, bv)
  | x :: xs, i, bi, bv =>
      if bv < x then argmaxAux xs (i + 1) i x else argmaxAux xs (i + 1) bi bv

/-- Model of `np.argmax`: index of the first occurrence of the maximum
(`0` on the empty list, where numpy raises). -/
def argmax {α : Type} [LinearOrder α] : List α → ℕ
  | [] => 0
  | x :: xs => (argmaxAux xs 1 0 x).1

/-- The supported template data types of the attacks; any other string
raises `ValueError` in the source. -/
inductive DataType where
  | ssn
  | creditcard

/-- Zero-left-padded decimal rendering, the model of Python's
`f"{n:0wd}"`. -/
def pad (w n : ℕ) : Text :=
  List.replicate (w - (Nat.toDigits 10 n).length) '0' ++ Nat.toDigits 10 n

/-- Source: the f-string `f"SSN: {area:03d}-{group:02d}-{serial:04d}"`. -/
def fmt_ssn (area grp serial : ℕ) : Text :=
  "SSN: ".data ++ pad 3 area ++ ['-'] ++ pad 2 grp ++ ['-'] ++ pad 4 serial

/-- Source: the generation loop of `generate_ssn_candidates`: per
candidate an area in `[1, 900)`, a group in `[1, 100)` and a serial in
`[1, 10000)`. -/
def genSSNList (g : RNG) : ℕ → List Text
  | 0 => []
  | n + 1 =>
      (fmt_ssn (randInt g 1 900).1 (randInt (randInt g 1 900).2 1 100).1
        (randInt (randInt (randInt g 1 900).2 1 100).2 1 10000).1) ::
      genSSNList (randInt (randInt (randInt g 1 900).2 1 100).2 1 10000).2 n

/-- The card-number starts of `generate_creditcard_candidates`. -/
def ccStarts : List Text := ["4", "51", "52", "53", "54", "55", "34", "37", "6011"].map String.data

/-- A run of uniformly random decimal digit characters,
`str(np.random.randint(0, 10))` joined. -/
def genDigits (g : RNG) : ℕ → Text × RNG
  | 0 => ([], g)
  | n + 1 =>
      ((Nat.digitChar (randInt g 0 10).1) :: (genDigits (randInt g 0 10).2 n).1,
       (genDigits (randInt g 0 10).2 n).2)

/-- Source: the hyphenated grouping of `generate_creditcard_candidates`:
15-digit numbers as 4-6-5, all others as 4-4-4-4. -/
def fmtCC (number : Text) : Text :=
  if number.length = 15 then
    number.take 4 ++ ['-'] ++ (number.drop 4).take 6 ++ ['-'] ++ number.drop 10
  else
    number.take 4 ++ ['-'] ++ (number.drop 4).take 4 ++ ['-'] ++
      (number.drop 8).take 4 ++ ['-'] ++ number.drop 12

/-- Source: the generation loop of `generate_creditcard_candidates`:
`np.random.choice` of a start (one draw), then one digit draw per
remaining position of a 15-digit Amex / 16-digit other number. -/
def genCCList (g : RNG) : ℕ → List Text
  | 0 => []
  | n + 1 =>
      ("Credit Card: ".data ++
        fmtCC ((ccStarts.getD (g 0 % ccStarts.length) []) ++
          (genDigits (rngTail g)
            (if ccStarts.getD (g 0 % ccStarts.length) [] = "34".data ∨
                ccStarts.getD (g 0 % ccStarts.length) [] = "37".data
             then 15 - (ccStarts.getD (g 0 % ccStarts.length) []).length
             else 16 - (ccStarts.getD (g 0 % ccStarts.length) []).length)).1)) ::
      genCCList (genDigits (rngTail g)
            (if ccStarts.getD (g 0 % ccStarts.length) [] = "34".data ∨
                ccStarts.getD (g 0 % ccStarts.length) [] = "37".data
             then 15 - (ccStarts.getD (g 0 % ccStarts.length) []).length
             else 16 - (ccStarts.getD (g 0 % ccStarts.length) []).length)).2 n

/-- The `candidates_cache` dict of a `SimilarityAttack` instance, one
entry per data-type key. -/
structure SimState where
  ssnCache : Option (List Text)
  ccCache : Option (List Text)

/-- Source: `generate_ssn_candidates`: serve `cache['ssn'][:n]` on a
hit; otherwise generate `n` candidates from the freshly seeded
generator (`np.random.seed(42)` makes generation start from a fixed
stream, modelled by the injected `seed` stream) and cache the whole
generated list. -/
def generate_ssn_candidates (seed : RNG) (st : SimState) (sample_size : ℕ) :
    List Text × SimState :=
  match st.ssnCache with
  | some c => (c.take sample_size, st)
  | none =>
      (genSSNList seed sample_size,
       { st with ssnCache := some (genSSNList seed sample_size) })

/-- Source: `generate_creditcard_candidates`, cached under the `'cc'`
key. -/
def generate_creditcard_candidates (seed : RNG) (st : SimState) (sample_size : ℕ) :
    List Text × SimState :=
  match st.ccCache with
  | some c => (c.take sample_size, st)
  | none =>
      (genCCList seed sample_size,
       { st with ccCache := some (genCCList seed sample_size) })

/-- Source: `generate_candidates_for_type`, the dispatch on the data
type. -/
def generate_candidates_for_type (seed : RNG) (st : SimState) (data_type : DataType)
    (sample_size : ℕ) : List Text × SimState :=
  match data_type with
  | .ssn => generate_ssn_candidates seed st sample_size
  | .creditcard => generate_creditcard_candidates seed st sample_size

/-- Source: `SimilarityAttack.execute`: generate candidates, batch-embed
them, score each against the target, pick `np.argmax`, succeed above
`0.9`, report the candidate count as `num_queries`. -/
def SimilarityAttack.execute {V α : Type} [LinearOrderedField α]
    (embed : Text → V) (sim : V → V → α) (seed : RNG) (st : SimState)
    (target : V) (data_type : DataType) (sample_size : ℕ) (elapsed : ℚ) :
    AttackResult α × SimState :=
  let gen := generate_candidates_for_type seed st data_type sample_size
  let similarities := (gen.1.map embed).map (fun e => sim target e)
  let best_idx := argmax similarities
  ({ success := decide ((9 : α) / 10 < similarities.getD best_idx 0)
     extracted_text := some (gen.1.getD best_idx [])
     confidence := similarities.getD best_idx 0
     method := "Similarity Attack"
     num_queries := gen.1.length
     time_seconds := elapsed }, gen.2)

/-- Invariant of reachable cache states: a cached candidate list is
nonempty (every caching call stores the list it generated for a positive
sample size). -/
def CacheWF (st : SimState) : Prop :=
  (∀ l, st.ssnCache = some l → l ≠ []) ∧ (∀ l, st.ccCache = some l → l ≠ [])

/-! ### Helper lemmas for the similarity attack -/

lemma argmaxAux_le {α : Type} [LinearOrder α] (xs : List α) :
    ∀ (i bi : ℕ) (bv : α),
      bv ≤ (argmaxAux xs i bi bv).2 ∧ ∀ y ∈ xs, y ≤ (argmaxAux xs i bi bv).2 := by
  induction xs with
  | nil => intro i bi bv; exact ⟨le_refl _, by simp⟩
  | cons x xs ih =>
      intro i bi bv
      by_cases h : bv < x
      · have hx := ih (i + 1) i x
        refine ⟨?_, ?_⟩
        · simp only [argmaxAux, if_pos h]
          exact le_trans (le_of_lt h) hx.1
        · intro y hy
          simp only [argmaxAux, if_pos h]
          rcases List.mem_cons.mp hy with rfl | hy
          · exact hx.1
          · exact hx.2 y hy
      · have hx := ih (i + 1) bi bv
        refine ⟨?_, ?_⟩
        · simp only [argmaxAux, if_neg h]
          exact hx.1
        · intro y hy
          simp only [argmaxAux, if_neg h]
          rcases List.mem_cons.mp hy with rfl | hy
          · exact le_trans (le_of_not_lt h) hx.1
          · exact hx.2 y hy

lemma argmaxAux_get {α : Type} [LinearOrder α] (xs : List α) :
    ∀ (i bi : ℕ) (bv : α),
      argmaxAux xs i bi bv = (bi, bv) ∨
      ∃ j : Fin xs.length, (argmaxAux xs i bi bv).1 = i + j.1 ∧
        (argmaxAux xs i bi bv).2 = xs.get j := by
  induction xs with
  | nil => intro i bi bv; exact Or.inl rfl
  | cons x xs ih =>
      intro i bi bv
      by_cases h : bv < x
      · simp only [argmaxAux, if_pos h]
        rcases ih (i + 1) i x with heq | ⟨j, hj1, hj2⟩
        · right
          refine ⟨⟨0, by simp⟩, ?_, ?_⟩
          · rw [heq]; simp
          · rw [heq]; simp
        · right
          refine ⟨⟨j.1 + 1, Nat.succ_lt_succ j.2⟩, ?_, ?_⟩
          · rw [hj1]
            show i + 1 + j.1 = i + (j.1 + 1)
            omega
          · exact hj2.trans rfl
      · simp only [argmaxAux, if_neg h]
        rcases ih (i + 1) bi bv with heq | ⟨j, hj1, hj2⟩
        · exact Or.inl heq
        · right
          refine ⟨⟨j.1 + 1, Nat.succ_lt_succ j.2⟩, ?_, ?_⟩
          · rw [hj1]
            show i + 1 + j.1 = i + (j.1 + 1)
            omega
          · exact hj2.trans rfl

lemma argmax_spec {α : Type} [LinearOrder α] (x : α) (xs : List α) (d : α) :
    argmax (x :: xs) < (x :: xs).length ∧
    (x :: xs).getD (argmax (x :: xs)) d = (argmaxAux xs 1 0 x).2 ∧
    ∀ y ∈ x :: xs, y ≤ (argmaxAux xs 1 0 x).2 := by
  have hle := argmaxAux_le xs 1 0 x
  have hget := argmaxAux_get xs 1 0 x
  have hidx : argmax (x :: xs) = (argmaxAux xs 1 0 x).1 := rfl
  refine ⟨?_, ?_, ?_⟩
  · rcases hget with heq | ⟨j, hj1, _⟩
    · rw [hidx, heq]; simp
    · rw [hidx, hj1]
      simp only [List.length_cons]
      omega
  · rcases hget with heq | ⟨j, hj1, hj2⟩
    · rw [hidx, heq]; simp
    · rw [hidx, hj1, hj2]
      have : (1 : ℕ) + j.1 = j.1 + 1 := by omega
      rw [this, List.getD_cons_succ]
      have hjlt : j.1 < xs.length := j.2
      rw [List.getD_eq_getElem xs d hjlt]
      simp [List.get_eq_getElem]
  · intro y hy
    rcases List.mem_cons.mp hy with rfl | hy
    · exact hle.1
    · exact hle.2 y hy

lemma genSSNList_length (g : RNG) (n : ℕ) : (genSSNList g n).length = n := by
  induction n generalizing g with
  | zero => simp [genSSNList]
  | succ n ih => simp [genSSNList, ih]

lemma genCCList_length (g : RNG) (n : ℕ) : (genCCList g n).length = n := by
  induction n generalizing g with
  | zero => simp [genCCList]
  | succ n ih => simp [genCCList, ih]

lemma generate_candidates_ne_nil (seed : RNG) (st : SimState) (data_type : DataType)
    (n : ℕ) (hn : 0 < n) (hst : CacheWF st) :
    (generate_candidates_for_type seed st data_type n).1 ≠ [] := by
  obtain ⟨sC, cC⟩ := st
  cases data_type with
  | ssn =>
      cases sC with
      | none =>
          apply List.length_pos.mp
          simp only [generate_candidates_for_type, generate_ssn_candidates]
          rw [genSSNList_length]
          exact hn
      | some c =>
          have hc : c ≠ [] := hst.1 c rfl
          apply List.length_pos.mp
          simp only [generate_candidates_for_type, generate_ssn_candidates]
          rw [List.length_take]
          exact lt_min hn (List.length_pos.mpr hc)
  | creditcard =>
      cases cC with
      | none =>
          apply List.length_pos.mp
          simp only [generate_candidates_for_type, generate_creditcard_candidates]
          rw [genCCList_length]
          exact hn
      | some c =>
          have hc : c ≠ [] := hst.2 c rfl
          apply List.length_pos.mp
          simp only [generate_candidates_for_type, generate_creditcard_candidates]
          rw [List.length_take]
          exact lt_min hn (List.length_pos.mpr hc)

lemma best_candidate_spec {α : Type} [LinearOrder α]
    (f : Text → α) (c : Text) (cs : List Text) (d : α) :
    (c :: cs).getD (argmax ((c :: cs).map f)) [] ∈ c :: cs ∧
    f ((c :: cs).getD (argmax ((c :: cs).map f)) []) =
      ((c :: cs).map f).getD (argmax ((c :: cs).map f)) d ∧
    ∀ x ∈ c :: cs, f x ≤ ((c :: cs).map f).getD (argmax ((c :: cs).map f)) d := by
  simp only [List.map_cons]
  obtain ⟨hlt, hval, hdom⟩ := argmax_spec (f c) (cs.map f) d
  have hltc : argmax (f c :: cs.map f) < (c :: cs).length := by
    simp only [List.length_cons]
    simpa using hlt
  have hltm : argmax (f c :: cs.map f) < (f c :: cs.map f).length := hlt
  refine ⟨?_, ?_, ?_⟩
  · rw [List.getD_eq_getElem (c :: cs) [] hltc]
    exact List.getElem_mem _
  · rw [List.getD_eq_getElem (c :: cs) [] hltc,
      List.getD_eq_getElem (f c :: cs.map f) d hltm]
    exact (List.getElem_map f).symm
  · intro x hx
    have hmem : f x ∈ f c :: cs.map f := by
      have : f x ∈ (c :: cs).map f := List.mem_map_of_mem f hx
      simpa using this
    rw [hval]
    exact hdom _ hmem

/-- Claim C1: for every target vector, both supported data types and
every positive sample size (and any reachable, well-formed cache state),
`SimilarityAttack.execute` returns as `extracted_text` a generated
candidate of maximal similarity to the target, with `confidence` equal
to that maximal similarity, `success` true iff the confidence exceeds
`0.9`, and `num_queries` equal to the number of candidate strings that
were embedded. -/
theorem C1_similarity_execute {V α : Type} [LinearOrderedField α]
    (embed : Text → V) (sim : V → V → α) (seed : RNG) (st : SimState)
    (target : V) (data_type : DataType) (sample_size : ℕ) (elapsed : ℚ)
    (hn : 0 < sample_size) (hst : CacheWF st) :
    (∃ ext,
      (SimilarityAttack.execute embed sim seed st target data_type sample_size
        elapsed).1.extracted_text = some ext ∧
      ext ∈ (generate_candidates_for_type seed st data_type sample_size).1 ∧
      sim target (embed ext) =
        (SimilarityAttack.execute embed sim seed st target data_type sample_size
          elapsed).1.confidence) ∧
    (∀ cand ∈ (generate_candidates_for_type seed st data_type sample_size).1,
      sim target (embed cand) ≤
        (SimilarityAttack.execute embed sim seed st target data_type sample_size
          elapsed).1.confidence) ∧
    ((SimilarityAttack.execute embed sim seed st target data_type sample_size
        elapsed).1.success = true ↔
      (9 : α) / 10 <
        (SimilarityAttack.execute embed sim seed st target data_type sample_size
          elapsed).1.confidence) ∧
    (SimilarityAttack.execute embed sim seed st target data_type sample_size
        elapsed).1.num_queries =
      (generate_candidates_for_type seed st data_type sample_size).1.length := by
  obtain ⟨c, cs, hc⟩ := List.exists_cons_of_ne_nil
    (generate_candidates_ne_nil seed st data_type sample_size hn hst)
  have hcomp : ∀ l : List Text, (l.map embed).map (fun e => sim target e) =
      l.map (fun t => sim target (embed t)) := fun l => by
    rw [List.map_map]; rfl
  obtain ⟨hmem, hval, hdom⟩ :=
    best_candidate_spec (fun t => sim target (embed t)) c cs (0 : α)
  simp only [SimilarityAttack.execute, hc, hcomp]
  refine ⟨⟨(c :: cs).getD (argmax ((c :: cs).map (fun t => sim target (embed t)))) [],
      rfl, hmem, hval⟩, hdom, ?_, trivial⟩
  simp [decide_eq_true_eq]

/-- Witness for C1: a fresh-cache similarity attack over `ℚ`-valued
scores with one requested SSN candidate. -/
theorem C1_similarity_execute_witness :
    (∃ ext,
      (SimilarityAttack.execute (fun _ => (0 : ℚ)) (fun _ _ => (0 : ℚ)) (fun _ => 0)
        ⟨none, none⟩ 0 DataType.ssn 1 0).1.extracted_text = some ext ∧
      ext ∈ (generate_candidates_for_type (fun _ => 0) ⟨none, none⟩ DataType.ssn 1).1 ∧
      (fun _ _ => (0 : ℚ)) 0 ((fun _ => (0 : ℚ)) ext) =
        (SimilarityAttack.execute (fun _ => (0 : ℚ)) (fun _ _ => (0 : ℚ)) (fun _ => 0)
          ⟨none, none⟩ 0 DataType.ssn 1 0).1.confidence) ∧
    (∀ cand ∈ (generate_candidates_for_type (fun _ => 0) ⟨none, none⟩ DataType.ssn 1).1,
      (fun _ _ => (0 : ℚ)) 0 ((fun _ => (0 : ℚ)) cand) ≤
        (SimilarityAttack.execute (fun _ => (0 : ℚ)) (fun _ _ => (0 : ℚ)) (fun _ => 0)
          ⟨none, none⟩ 0 DataType.ssn 1 0).1.confidence) ∧
    ((SimilarityAttack.execute (fun _ => (0 : ℚ)) (fun _ _ => (0 : ℚ)) (fun _ => 0)
        ⟨none, none⟩ 0 DataType.ssn 1 0).1.success = true ↔
      (9 : ℚ) / 10 <
        (SimilarityAttack.execute (fun _ => (0 : ℚ)) (fun _ _ => (0 : ℚ)) (fun _ => 0)
          ⟨none, none⟩ 0 DataType.ssn 1 0).1.confidence) ∧
    (SimilarityAttack.execute (fun _ => (0 : ℚ)) (fun _ _ => (0 : ℚ)) (fun _ => 0)
        ⟨none, none⟩ 0 DataType.ssn 1 0).1.num_queries =
      (generate_candidates_for_type (fun _ => 0) ⟨none, none⟩ DataType.ssn 1).1.length :=
  C1_similarity_execute (fun _ => (0 : ℚ)) (fun _ _ => (0 : ℚ)) (fun _ => 0)
    ⟨none, none⟩ 0 DataType.ssn 1 0 (by norm_num)
    ⟨fun l h => (nomatch h), fun l h => (nomatch h)⟩

/-! ## Incremental similarity search (`SimilarityAttack.incremental_search`) -/

/-- The widening per-round sample sizes of `incremental_search`. -/
def incrementalSampleSizes : List ℕ := [100, 500, 1000, 5000, 10000]

/-- One best-result update of the incremental loop, the source's
`if best_result is None or result.confidence > best_result.confidence`. -/
def betterResult {α : Type} [LinearOrder α] (best : Option (AttackResult α))
    (r : AttackResult α) : AttackResult α :=
  match best with
  | none => r
  | some b => if b.confidence < r.confidence then r else b

/-- Source: the round loop of `incremental_search`, threading the cache
state, the cumulative query count and the best result, and breaking
after a round whose confidence exceeds `0.95`. `times i` is the
wall-clock duration oracle of round `i`. -/
def incrementalLoop {V α : Type} [LinearOrderedField α]
    (embed : Text → V) (sim : V → V → α) (seed : RNG) (target : V)
    (data_type : DataType) (times : ℕ → ℚ) :
    List ℕ → SimState → ℕ → ℕ → Option (AttackResult α) →
    Option (AttackResult α) × ℕ × SimState
  | [], st, _, tq, best => (best, tq, st)
  | n :: ns, st, i, tq, best =>
      if (95 : α) / 100 <
          (SimilarityAttack.execute embed sim seed st target data_type n
            (times i)).1.confidence then
        (some (betterResult best
            (SimilarityAttack.execute embed sim seed st target data_type n (times i)).1),
         tq + (SimilarityAttack.execute embed sim seed st target data_type n
            (times i)).1.num_queries,
         (SimilarityAttack.execute embed sim seed st target data_type n (times i)).2)
      else
        incrementalLoop embed sim seed target data_type times ns
          (SimilarityAttack.execute embed sim seed st target data_type n (times i)).2
          (i + 1)
          (tq + (SimilarityAttack.execute embed sim seed st target data_type n
            (times i)).1.num_queries)
          (some (betterResult best
            (SimilarityAttack.execute embed sim seed st target data_type n (times i)).1))

/-- The final overwrite of `incremental_search` (source lines updating
`best_result` in place): the whole-search duration, the cumulative
query total and the incremental method name. -/
def restamp {α : Type} (b : AttackResult α) (tq : ℕ) (totalElapsed : ℚ) :
    AttackResult α :=
  { b with
    time_seconds := totalElapsed
    num_queries := tq
    method := "Similarity Attack (Incremental)" }

/-- Source: `SimilarityAttack.incremental_search`: run the widening
rounds, then overwrite the best result's `time_seconds` with the
duration of the whole incremental search, its `num_queries` with the
cumulative total, and its method name. Returns `none` when no round ran
(`max_iterations = 0`, where the Python code would crash dereferencing
`best_result`). -/
def incremental_search {V α : Type} [LinearOrderedField α]
    (embed : Text → V) (sim : V → V → α) (seed : RNG) (st : SimState)
    (target : V) (data_type : DataType) (max_iterations : ℕ)
    (times : ℕ → ℚ) (totalElapsed : ℚ) :
    Option (AttackResult α) × SimState :=
  match (incrementalLoop embed sim seed target data_type times
      (incrementalSampleSizes.take max_iterations) st 0 0 none).1 with
  | none => (none,
      (incrementalLoop embed sim seed target data_type times
        (incrementalSampleSizes.take max_iterations) st 0 0 none).2.2)
  | some b => (some (restamp b
      (incrementalLoop embed sim seed target data_type times
        (incrementalSampleSizes.take max_iterations) st 0 0 none).2.1 totalElapsed),
      (incrementalLoop embed sim seed target data_type times
        (incrementalSampleSizes.take max_iterations) st 0 0 none).2.2)

/-- The per-round results of the incremental search, with the cache
state threaded from round to round and no early stop. -/
def roundResults {V α : Type} [LinearOrderedField α]
    (embed : Text → V) (sim : V → V → α) (seed : RNG) (target : V)
    (data_type : DataType) (times : ℕ → ℚ) :
    List ℕ → SimState → ℕ → List (AttackResult α)
  | [], _, _ => []
  | n :: ns, st, i =>
      (SimilarityAttack.execute embed sim seed st target data_type n (times i)).1 ::
      roundResults embed sim seed target data_type times ns
        (SimilarityAttack.execute embed sim seed st target data_type n (times i)).2 (i + 1)

/-- The executed prefix of a round sequence: every round up to and
including the first one whose confidence exceeds the `0.95` early-stop
threshold. -/
def stopAfterHigh {α : Type} [LinearOrderedField α] :
    List (AttackResult α) → List (AttackResult α)
  | [] => []
  | r :: rs =>
      if (95 : α) / 100 < r.confidence then [r] else r :: stopAfterHigh rs

/-- First-maximum fold over round results: the claim-side "best result
seen so far". -/
def foldBest {α : Type} [LinearOrder α] :
    Option (AttackResult α) → List (AttackResult α) → Option (AttackResult α)
  | best, [] => best
  | best, r :: rs => foldBest (some (betterResult best r)) rs

/-! ### Helper lemmas for the incremental search -/

lemma betterResult_some_le {α : Type} [LinearOrder α] (b0 r : AttackResult α) :
    b0.confidence ≤ (betterResult (some b0) r).confidence ∧
    r.confidence ≤ (betterResult (some b0) r).confidence := by
  by_cases hc : b0.confidence < r.confidence
  · simp only [betterResult, if_pos hc]
    exact ⟨le_of_lt hc, le_refl _⟩
  · simp only [betterResult, if_neg hc]
    exact ⟨le_refl _, le_of_not_lt hc⟩

lemma foldBest_spec {α : Type} [LinearOrder α] :
    ∀ (rs : List (AttackResult α)) (b0 : AttackResult α),
      ∃ b, foldBest (some b0) rs = some b ∧ (b = b0 ∨ b ∈ rs) ∧
        b0.confidence ≤ b.confidence ∧ ∀ r ∈ rs, r.confidence ≤ b.confidence := by
  intro rs
  induction rs with
  | nil =>
      intro b0
      exact ⟨b0, rfl, Or.inl rfl, le_refl _, by simp⟩
  | cons r rs ih =>
      intro b0
      obtain ⟨b, hfold, hmem, hle, hall⟩ := ih (betterResult (some b0) r)
      refine ⟨b, hfold, ?_, ?_, ?_⟩
      · rcases hmem with hb | hb
        · by_cases hc : b0.confidence < r.confidence
          · right
            rw [hb]
            simp [betterResult, if_pos hc]
          · left
            rw [hb]
            simp [betterResult, if_neg hc]
        · right
          exact List.mem_cons_of_mem r hb
      · exact le_trans (betterResult_some_le b0 r).1 hle
      · intro q hq
        rcases List.mem_cons.mp hq with rfl | hq
        · exact le_trans (betterResult_some_le b0 q).2 hle
        · exact hall q hq

lemma incrementalLoop_spec {V α : Type} [LinearOrderedField α]
    (embed : Text → V) (sim : V → V → α) (seed : RNG) (target : V)
    (data_type : DataType) (times : ℕ → ℚ) :
    ∀ (sizes : List ℕ) (st : SimState) (i tq : ℕ) (best : Option (AttackResult α)),
      (incrementalLoop embed sim seed target data_type times sizes st i tq best).1 =
        foldBest best (stopAfterHigh
          (roundResults embed sim seed target data_type times sizes st i)) ∧
      (incrementalLoop embed sim seed target data_type times sizes st i tq best).2.1 =
        tq + ((stopAfterHigh (roundResults embed sim seed target data_type times
          sizes st i)).map (fun r => r.num_queries)).sum := by
  intro sizes
  induction sizes with
  | nil =>
      intro st i tq best
      simp [incrementalLoop, roundResults, stopAfterHigh, foldBest]
  | cons n ns ih =>
      intro st i tq best
      by_cases h : (95 : α) / 100 <
          (SimilarityAttack.execute embed sim seed st target data_type n
            (times i)).1.confidence
      · constructor
        · simp only [incrementalLoop, roundResults, stopAfterHigh, if_pos h, foldBest]
        · simp only [incrementalLoop, roundResults, stopAfterHigh, if_pos h, foldBest]
          simp
      · constructor
        · simp only [incrementalLoop, roundResults, stopAfterHigh, if_neg h, foldBest]
          exact (ih _ (i + 1) _ _).1
        · simp only [incrementalLoop, roundResults, stopAfterHigh, if_neg h, foldBest]
          rw [(ih _ (i + 1) _ _).2]
          simp only [List.map_cons, List.sum_cons]
          omega

lemma roundResults_length {V α : Type} [LinearOrderedField α]
    (embed : Text → V) (sim : V → V → α) (seed : RNG) (target : V)
    (data_type : DataType) (times : ℕ → ℚ) :
    ∀ (sizes : List ℕ) (st : SimState) (i : ℕ),
      (roundResults embed sim seed target data_type times sizes st i).length =
        sizes.length := by
  intro sizes
  induction sizes with
  | nil => intro st i; simp [roundResults]
  | cons n ns ih =>
      intro st i
      simp only [roundResults, List.length_cons, ih]

lemma stopAfterHigh_ne_nil {α : Type} [LinearOrderedField α]
    (rs : List (AttackResult α)) (h : rs ≠ []) : stopAfterHigh rs ≠ [] := by
  cases rs with
  | nil => exact absurd rfl h
  | cons r rest =>
      by_cases hc : (95 : α) / 100 < r.confidence
      · simp [stopAfterHigh, if_pos hc]
      · simp [stopAfterHigh, if_neg hc]

lemma stopAfterHigh_length_le {α : Type} [LinearOrderedField α]
    (rs : List (AttackResult α)) : (stopAfterHigh rs).length ≤ rs.length := by
  induction rs with
  | nil => simp [stopAfterHigh]
  | cons r rest ih =>
      by_cases hc : (95 : α) / 100 < r.confidence
      · simp only [stopAfterHigh, if_pos hc, List.length_cons, List.length_nil]
        omega
      · simp only [stopAfterHigh, if_neg hc, List.length_cons]
        omega

/-- Claim C4: `incremental_search` runs rounds over the widening sample
sizes `[100, 500, 1000, 5000, 10000]` truncated to `max_iterations`,
executes exactly the prefix of rounds up to and including the first one
whose confidence exceeds `0.95` (`stopAfterHigh`), keeps the best (first
maximal-confidence) result seen across the executed rounds, and reports
`num_queries` as the sum of the executed rounds' embedded-candidate
counts and `time_seconds` as the duration of the whole incremental
search (`restamp`). -/
theorem C4_incremental_search {V α : Type} [LinearOrderedField α]
    (embed : Text → V) (sim : V → V → α) (seed : RNG) (st : SimState)
    (target : V) (data_type : DataType) (max_iterations : ℕ)
    (times : ℕ → ℚ) (totalElapsed : ℚ) (hit : 0 < max_iterations) :
    ∃ b,
      foldBest none (stopAfterHigh (roundResults embed sim seed target data_type times
        (incrementalSampleSizes.take max_iterations) st 0)) = some b ∧
      (incremental_search embed sim seed st target data_type max_iterations times
          totalElapsed).1 =
        some (restamp b
          ((stopAfterHigh (roundResults embed sim seed target data_type times
            (incrementalSampleSizes.take max_iterations) st 0)).map
              (fun r => r.num_queries)).sum totalElapsed) ∧
      b ∈ stopAfterHigh (roundResults embed sim seed target data_type times
        (incrementalSampleSizes.take max_iterations) st 0) ∧
      (∀ r ∈ stopAfterHigh (roundResults embed sim seed target data_type times
          (incrementalSampleSizes.take max_iterations) st 0),
        r.confidence ≤ b.confidence) ∧
      (stopAfterHigh (roundResults embed sim seed target data_type times
        (incrementalSampleSizes.take max_iterations) st 0)).length ≤ max_iterations := by
  have hsz : incrementalSampleSizes.take max_iterations ≠ [] := by
    apply List.length_pos.mp
    rw [List.length_take]
    simp only [incrementalSampleSizes, List.length_cons, List.length_nil]
    omega
  have hrrlen := roundResults_length embed sim seed target data_type times
    (incrementalSampleSizes.take max_iterations) st 0
  have hrr : roundResults embed sim seed target data_type times
      (incrementalSampleSizes.take max_iterations) st 0 ≠ [] := by
    apply List.length_pos.mp
    rw [hrrlen]
    exact List.length_pos.mpr hsz
  have hstop := stopAfterHigh_ne_nil _ hrr
  obtain ⟨r0, rest, hex⟩ := List.exists_cons_of_ne_nil hstop
  obtain ⟨b, hfold, hmem, hle, hall⟩ := foldBest_spec rest r0
  have hbfold : foldBest none (stopAfterHigh (roundResults embed sim seed target
      data_type times (incrementalSampleSizes.take max_iterations) st 0)) = some b := by
    rw [hex]
    exact hfold
  have hloop := incrementalLoop_spec embed sim seed target data_type times
    (incrementalSampleSizes.take max_iterations) st 0 0 none
  refine ⟨b, hbfold, ?_, ?_, ?_, ?_⟩
  · have h1 : (incrementalLoop embed sim seed target data_type times
        (incrementalSampleSizes.take max_iterations) st 0 0 none).1 = some b :=
      hloop.1.trans hbfold
    have h2 : (incrementalLoop embed sim seed target data_type times
        (incrementalSampleSizes.take max_iterations) st 0 0 none).2.1 =
        ((stopAfterHigh (roundResults embed sim seed target data_type times
          (incrementalSampleSizes.take max_iterations) st 0)).map
            (fun r => r.num_queries)).sum := by
      rw [hloop.2]
      omega
    simp only [incremental_search]
    split
    · rename_i heq
      rw [h1] at heq
      simp at heq
    · rename_i b' heq
      rw [h1] at heq
      injection heq with hbb
      rw [← hbb, h2]
  · rw [hex]
    rcases hmem with hb | hb
    · rw [hb]
      exact List.mem_cons_self r0 rest
    · exact List.mem_cons_of_mem r0 hb
  · intro r hr
    rw [hex] at hr
    rcases List.mem_cons.mp hr with rfl | hr
    · exact hle
    · exact hall r hr
  · calc (stopAfterHigh (roundResults embed sim seed target data_type times
          (incrementalSampleSizes.take max_iterations) st 0)).length
        ≤ (roundResults embed sim seed target data_type times
          (incrementalSampleSizes.take max_iterations) st 0).length :=
          stopAfterHigh_length_le _
      _ = (incrementalSampleSizes.take max_iterations).length := hrrlen
      _ ≤ max_iterations := by
          rw [List.length_take]
          omega

/-- Witness for C4: one incremental round over `ℚ`-valued scores. -/
theorem C4_incremental_search_witness :
    ∃ b,
      foldBest none (stopAfterHigh (roundResults (fun _ => (0 : ℚ)) (fun _ _ => (0 : ℚ))
        (fun _ => 0) 0 DataType.ssn (fun _ => 0)
        (incrementalSampleSizes.take 1) ⟨none, none⟩ 0)) = some b ∧
      (incremental_search (fun _ => (0 : ℚ)) (fun _ _ => (0 : ℚ)) (fun _ => 0)
          ⟨none, none⟩ 0 DataType.ssn 1 (fun _ => 0) 0).1 =
        some (restamp b
          ((stopAfterHigh (roundResults (fun _ => (0 : ℚ)) (fun _ _ => (0 : ℚ))
            (fun _ => 0) 0 DataType.ssn (fun _ => 0)
            (incrementalSampleSizes.take 1) ⟨none, none⟩ 0)).map
              (fun r => r.num_queries)).sum 0) ∧
      b ∈ stopAfterHigh (roundResults (fun _ => (0 : ℚ)) (fun _ _ => (0 : ℚ))
        (fun _ => 0) 0 DataType.ssn (fun _ => 0)
        (incrementalSampleSizes.take 1) ⟨none, none⟩ 0) ∧
      (∀ r ∈ stopAfterHigh (roundResults (fun _ => (0 : ℚ)) (fun _ _ => (0 : ℚ))
          (fun _ => 0) 0 DataType.ssn (fun _ => 0)
          (incrementalSampleSizes.take 1) ⟨none, none⟩ 0),
        r.confidence ≤ b.confidence) ∧
      (stopAfterHigh (roundResults (fun _ => (0 : ℚ)) (fun _ _ => (0 : ℚ))
        (fun _ => 0) 0 DataType.ssn (fun _ => 0)
        (incrementalSampleSizes.take 1) ⟨none, none⟩ 0)).length ≤ 1 :=
  C4_incremental_search (fun _ => (0 : ℚ)) (fun _ _ => (0 : ℚ)) (fun _ => 0)
    ⟨none, none⟩ 0 DataType.ssn 1 (fun _ => 0) 0 (by norm_num)

/-! ## Reconstruction attack (`attacks/reconstruction_attack.py`) -/

/-- Source: the mutation loop of `_optimize_segment`: walking the
characters of the base string, every decimal digit at an index in
`[start, stop)` is replaced by `str(np.random.randint(0, 10))`;
everything else (including previously optimised segments) is kept. -/
def mutateSeg (start stop : ℕ) : ℕ → Text → RNG → Text × RNG
  | _, [], g => ([], g)
  | i, c :: cs, g =>
      if start ≤ i ∧ i < stop ∧ c.isDigit then
        (Nat.digitChar ((randInt g 0 10).1) ::
          (mutateSeg start stop (i + 1) cs (randInt g 0 10).2).1,
         (mutateSeg start stop (i + 1) cs (randInt g 0 10).2).2)
      else
        (c :: (mutateSeg start stop (i + 1) cs g).1,
         (mutateSeg start stop (i + 1) cs g).2)

/-- The `num_samples` local variations of one beam candidate, in
generation order. -/
def localVars (base : Text) (start stop : ℕ) : ℕ → RNG → List Text × RNG
  | 0, g => ([], g)
  | k + 1, g =>
      ((mutateSeg start stop 0 base g).1 ::
        (localVars base start stop k (mutateSeg start stop 0 base g).2).1,
       (localVars base start stop k (mutateSeg start stop 0 base g).2).2)

/-- The flattened `scored_candidates` pool of `_optimize_segment`: per
beam candidate, its batch-embedded variations paired with their
similarity to the target, appended in generation order. -/
def scoredPool {V α : Type} (embed : Text → V) (sim : V → V → α)
    (target : V) (start stop num : ℕ) : List Text → RNG → List (α × Text) × RNG
  | [], g => ([], g)
  | base :: bs, g =>
      ((localVars base start stop num g).1.map
          (fun v => (sim target (embed v), v)) ++
        (scoredPool embed sim target start stop num bs
          (localVars base start stop num g).2).1,
       (scoredPool embed sim target start stop num bs
          (localVars base start stop num g).2).2)

/-- Stable descending insertion, modelling one placement of Python's
stable `sort(key=lambda x: x[0], reverse=True)`: an element goes in
front of the first already-placed element whose score is at most its
own, so earlier-generated candidates precede later ones on ties. -/
def insertDesc {α : Type} [LinearOrder α] (p : α × Text) :
    List (α × Text) → List (α × Text)
  | [] => [p]
  | q :: qs => if q.1 ≤ p.1 then p :: q :: qs else q :: insertDesc p qs

/-- Stable descending sort by score: the model of
`scored_candidates.sort(key=lambda x: x[0], reverse=True)`. -/
def sortDesc {α : Type} [LinearOrder α] : List (α × Text) → List (α × Text)
  | [] => []
  | p :: ps => insertDesc p (sortDesc ps)

/-- Source: `_optimize_segment`: score every variation of every beam
candidate, sort descending by similarity (Python's stable sort), and
return the texts of the top 5 (the hard-coded beam kept by the code). -/
def optimizeSegment {V α : Type} [LinearOrder α] (embed : Text → V)
    (sim : V → V → α) (target : V) (cur : List Text)
    (start stop num : ℕ) (g : RNG) : List Text × RNG :=
  (((sortDesc (scoredPool embed sim target start stop num cur g).1).take 5).map
      Prod.snd,
   (scoredPool embed sim target start stop num cur g).2)

/-- The all-zero SSN template seeding `_reconstruct_ssn`. -/
def ssnTemplate : Text := "SSN: 000-00-0000".data

/-- The all-zero credit-card template seeding `_reconstruct_cc`. -/
def ccTemplate : Text := "Credit Card: 0000-0000-0000-0000".data

/-- Beam after the SSN area segment (indices 5-7, 100 samples). -/
def ssnBeam1 {V α : Type} [LinearOrder α] (embed : Text → V) (sim : V → V → α)
    (target : V) (g : RNG) : List Text × RNG :=
  optimizeSegment embed sim target [ssnTemplate] 5 8 100 g

/-- Beam after the SSN group segment (indices 9-10, 50 samples). -/
def ssnBeam2 {V α : Type} [LinearOrder α] (embed : Text → V) (sim : V → V → α)
    (target : V) (g : RNG) : List Text × RNG :=
  optimizeSegment embed sim target (ssnBeam1 embed sim target g).1 9 11 50
    (ssnBeam1 embed sim target g).2

/-- Beam after the SSN serial segment (indices 12-15, 50 samples). -/
def ssnBeam3 {V α : Type} [LinearOrder α] (embed : Text → V) (sim : V → V → α)
    (target : V) (g : RNG) : List Text × RNG :=
  optimizeSegment embed sim target (ssnBeam2 embed sim target g).1 12 16 50
    (ssnBeam2 embed sim target g).2

/-- Source: `_reconstruct_ssn`: three segment optimisations, then
`candidates[0]` of the final beam. -/
def reconstruct_ssn {V α : Type} [LinearOrder α] (embed : Text → V)
    (sim : V → V → α) (target : V) (g : RNG) : Text × RNG :=
  ((ssnBeam3 embed sim target g).1.headD [], (ssnBeam3 embed sim target g).2)

/-- Credit-card beam after the first 4-digit group (indices 13-16). -/
def ccBeam1 {V α : Type} [LinearOrder α] (embed : Text → V) (sim : V → V → α)
    (target : V) (g : RNG) : List Text × RNG :=
  optimizeSegment embed sim target [ccTemplate] 13 17 50 g

/-- Credit-card beam after the second 4-digit group (indices 18-21). -/
def ccBeam2 {V α : Type} [LinearOrder α] (embed : Text → V) (sim : V → V → α)
    (target : V) (g : RNG) : List Text × RNG :=
  optimizeSegment embed sim target (ccBeam1 embed sim target g).1 18 22 50
    (ccBeam1 embed sim target g).2

/-- Credit-card beam after the third 4-digit group (indices 23-26). -/
def ccBeam3 {V α : Type} [LinearOrder α] (embed : Text → V) (sim : V → V → α)
    (target : V) (g : RNG) : List Text × RNG :=
  optimizeSegment embed sim target (ccBeam2 embed sim target g).1 23 27 50
    (ccBeam2 embed sim target g).2

/-- Credit-card beam after the fourth 4-digit group (indices 28-31). -/
def ccBeam4 {V α : Type} [LinearOrder α] (embed : Text → V) (sim : V → V → α)
    (target : V) (g : RNG) : List Text × RNG :=
  optimizeSegment embed sim target (ccBeam3 embed sim target g).1 28 32 50
    (ccBeam3 embed sim target g).2

/-- Source: `_reconstruct_cc`: four segment optimisations, then
`candidates[0]` of the final beam. -/
def reconstruct_cc {V α : Type} [LinearOrder α] (embed : Text → V)
    (sim : V → V → α) (target : V) (g : RNG) : Text × RNG :=
  ((ccBeam4 embed sim target g).1.headD [], (ccBeam4 embed sim target g).2)

/-- The final beam of the reconstruction attack for a data type. -/
def finalBeam {V α : Type} [LinearOrder α] (embed : Text → V) (sim : V → V → α)
    (target : V) (data_type : DataType) (g : RNG) : List Text :=
  match data_type with
  | .ssn => (ssnBeam3 embed sim target g).1
  | .creditcard => (ccBeam4 embed sim target g).1

/-- Source: `ReconstructionAttack.execute`: dispatch on the data type,
re-embed the returned candidate, take its similarity to the target as
`confidence`, succeed above `0.9`; `num_queries` is hard-coded `0` and
`beam_width` is accepted but never used (the beam kept is the hard-coded
top 5). -/
def ReconstructionAttack.execute {V α : Type} [LinearOrderedField α]
    (embed : Text → V) (sim : V → V → α) (target : V) (data_type : DataType)
    (beam_width : ℕ) (g : RNG) (elapsed : ℚ) : AttackResult α × RNG :=
  match data_type with
  | .ssn =>
      ({ success := decide ((9 : α) / 10 <
          sim target (embed (reconstruct_ssn embed sim target g).1))
         extracted_text := some (reconstruct_ssn embed sim target g).1
         confidence := sim target (embed (reconstruct_ssn embed sim target g).1)
         method := "Reconstruction Attack (Beam Search)"
         num_queries := 0
         time_seconds := elapsed }, (reconstruct_ssn embed sim target g).2)
  | .creditcard =>
      ({ success := decide ((9 : α) / 10 <
          sim target (embed (reconstruct_cc embed sim target g).1))
         extracted_text := some (reconstruct_cc embed sim target g).1
         confidence := sim target (embed (reconstruct_cc embed sim target g).1)
         method := "Reconstruction Attack (Beam Search)"
         num_queries := 0
         time_seconds := elapsed }, (reconstruct_cc embed sim target g).2)

/-! ### Helper lemmas for the reconstruction attack -/

lemma localVars_length (base : Text) (start stop : ℕ) :
    ∀ (num : ℕ) (g : RNG), (localVars base start stop num g).1.length = num := by
  intro num
  induction num with
  | zero => intro g; simp [localVars]
  | succ k ih => intro g; simp [localVars, ih]

lemma insertDesc_perm {α : Type} [LinearOrder α] (p : α × Text)
    (l : List (α × Text)) : List.Perm (insertDesc p l) (p :: l) := by
  induction l with
  | nil => exact List.Perm.refl _
  | cons q qs ih =>
      by_cases h : q.1 ≤ p.1
      · simp [insertDesc, if_pos h]
      · simp only [insertDesc, if_neg h]
        exact List.Perm.trans (List.Perm.cons q ih) (List.Perm.swap p q qs)

lemma sortDesc_perm {α : Type} [LinearOrder α] (l : List (α × Text)) :
    List.Perm (sortDesc l) l := by
  induction l with
  | nil => exact List.Perm.refl _
  | cons p ps ih =>
      exact List.Perm.trans (insertDesc_perm p (sortDesc ps)) (List.Perm.cons p ih)

lemma insertDesc_sorted {α : Type} [LinearOrder α] (p : α × Text)
    (l : List (α × Text)) (hl : l.Pairwise (fun x y => y.1 ≤ x.1)) :
    (insertDesc p l).Pairwise (fun x y => y.1 ≤ x.1) := by
  induction l with
  | nil => simp [insertDesc]
  | cons q qs ih =>
      obtain ⟨hq, hqs⟩ := List.pairwise_cons.mp hl
      by_cases h : q.1 ≤ p.1
      · simp only [insertDesc, if_pos h]
        refine List.pairwise_cons.mpr ⟨?_, hl⟩
        intro b hb
        rcases List.mem_cons.mp hb with rfl | hb
        · exact h
        · exact le_trans (hq b hb) h
      · simp only [insertDesc, if_neg h]
        refine List.pairwise_cons.mpr ⟨?_, ih hqs⟩
        intro b hb
        rcases List.mem_cons.mp ((insertDesc_perm p qs).mem_iff.mp hb) with rfl | hb
        · exact le_of_not_le h
        · exact hq b hb

lemma sortDesc_sorted {α : Type} [LinearOrder α] (l : List (α × Text)) :
    (sortDesc l).Pairwise (fun x y => y.1 ≤ x.1) := by
  induction l with
  | nil => simp [sortDesc]
  | cons p ps ih => exact insertDesc_sorted p (sortDesc ps) ih

lemma scoredPool_tag {V α : Type} (embed : Text → V) (sim : V → V → α)
    (target : V) (start stop num : ℕ) :
    ∀ (cur : List Text) (g : RNG) (p : α × Text),
      p ∈ (scoredPool embed sim target start stop num cur g).1 →
      p.1 = sim target (embed p.2) := by
  intro cur
  induction cur with
  | nil => intro g p hp; simp [scoredPool] at hp
  | cons base bs ih =>
      intro g p hp
      simp only [scoredPool, List.mem_append] at hp
      rcases hp with hp | hp
      · obtain ⟨v, _, hv⟩ := List.mem_map.mp hp
        rw [← hv]
      · exact ih _ p hp

lemma scoredPool_ne_nil {V α : Type} (embed : Text → V) (sim : V → V → α)
    (target : V) (start stop num : ℕ) (cur : List Text) (g : RNG)
    (hcur : cur ≠ []) (hnum : 0 < num) :
    (scoredPool embed sim target start stop num cur g).1 ≠ [] := by
  cases cur with
  | nil => exact absurd rfl hcur
  | cons base bs =>
      simp only [scoredPool]
      intro h
      rcases List.append_eq_nil.mp h with ⟨h1, _⟩
      have hlen := localVars_length base start stop num g
      rw [List.map_eq_nil_iff] at h1
      rw [h1] at hlen
      simp at hlen
      omega

lemma optimizeSegment_subset {V α : Type} [LinearOrder α] (embed : Text → V)
    (sim : V → V → α) (target : V) (cur : List Text) (start stop num : ℕ)
    (g : RNG) :
    ∀ t ∈ (optimizeSegment embed sim target cur start stop num g).1,
      ∃ p ∈ (scoredPool embed sim target start stop num cur g).1, p.2 = t := by
  intro t ht
  simp only [optimizeSegment] at ht
  obtain ⟨q, hq, hqt⟩ := List.mem_map.mp ht
  have hq1 : q ∈ sortDesc (scoredPool embed sim target start stop num cur g).1 :=
    List.take_subset _ _ hq
  exact ⟨q, (sortDesc_perm _).subset hq1, hqt⟩

lemma optimizeSegment_spec {V α : Type} [LinearOrder α] (embed : Text → V)
    (sim : V → V → α) (target : V) (cur : List Text) (start stop num : ℕ)
    (g : RNG) (hcur : cur ≠ []) (hnum : 0 < num) :
    (optimizeSegment embed sim target cur start stop num g).1 ≠ [] ∧
    (∀ t ∈ (optimizeSegment embed sim target cur start stop num g).1,
      sim target (embed t) ≤ sim target (embed
        ((optimizeSegment embed sim target cur start stop num g).1.headD []))) ∧
    (∀ p ∈ (scoredPool embed sim target start stop num cur g).1,
      p.1 ≤ sim target (embed
        ((optimizeSegment embed sim target cur start stop num g).1.headD []))) := by
  have hpool := scoredPool_ne_nil embed sim target start stop num cur g hcur hnum
  have hperm := sortDesc_perm (scoredPool embed sim target start stop num cur g).1
  have hsorted := sortDesc_sorted (scoredPool embed sim target start stop num cur g).1
  have hsne : sortDesc (scoredPool embed sim target start stop num cur g).1 ≠ [] := by
    intro h
    have hl := hperm.length_eq
    rw [h] at hl
    simp only [List.length_nil] at hl
    exact hpool (List.length_eq_zero.mp hl.symm)
  obtain ⟨s0, srest, hs⟩ := List.exists_cons_of_ne_nil hsne
  have hpair : List.Pairwise (fun x y => y.1 ≤ x.1) (s0 :: srest) :=
    hs ▸ hsorted
  have hhead : ∀ q ∈ srest, q.1 ≤ s0.1 := (List.pairwise_cons.mp hpair).1
  have hs0pool : s0 ∈ (scoredPool embed sim target start stop num cur g).1 :=
    hperm.subset (hs ▸ List.mem_cons_self s0 srest)
  have htag0 : s0.1 = sim target (embed s0.2) :=
    scoredPool_tag embed sim target start stop num cur g s0 hs0pool
  have hout : (optimizeSegment embed sim target cur start stop num g).1 =
      s0.2 :: (srest.take 4).map Prod.snd := by
    simp only [optimizeSegment]
    rw [hs]
    rfl
  have hheadD : (optimizeSegment embed sim target cur start stop num g).1.headD [] =
      s0.2 := by
    rw [hout]
    rfl
  have hpoolmax : ∀ p ∈ (scoredPool embed sim target start stop num cur g).1,
      p.1 ≤ s0.1 := by
    intro p hp
    have hpm : p ∈ s0 :: srest := by
      rw [← hs]
      exact (hperm.mem_iff).mpr hp
    rcases List.mem_cons.mp hpm with rfl | hpm
    · exact le_refl _
    · exact hhead p hpm
  refine ⟨?_, ?_, ?_⟩
  · rw [hout]
    simp
  · intro t ht
    rw [hout] at ht
    rw [hheadD, ← htag0]
    rcases List.mem_cons.mp ht with rfl | ht
    · rw [htag0]
    · obtain ⟨q, hq, hqt⟩ := List.mem_map.mp ht
      have hqs : q ∈ srest := List.take_subset _ _ hq
      have hqpool : q ∈ (scoredPool embed sim target start stop num cur g).1 :=
        hperm.subset (hs ▸ List.mem_cons_of_mem s0 hqs)
      have htagq := scoredPool_tag embed sim target start stop num cur g q hqpool
      rw [← hqt, ← htagq]
      exact hpoolmax q hqpool
  · intro p hp
    rw [hheadD, ← htag0]
    exact hpoolmax p hp

/-! ### Template-shape invariant of the reconstruction beams -/

/-- Shape agreement with a template: same length, digit positions stay
digits, and every non-digit (literal) position is kept verbatim. For the
SSN template this is exactly the shape `SSN: DDD-DD-DDDD`, for the
credit-card template exactly `Credit Card: DDDD-DDDD-DDDD-DDDD`. -/
def shapedLike : Text → Text → Prop
  | [], [] => True
  | t :: ts, s :: ss =>
      (if t.isDigit then s.isDigit = true else s = t) ∧ shapedLike ts ss
  | _, _ => False

lemma shapedLike_refl : ∀ t : Text, shapedLike t t := by
  intro t
  induction t with
  | nil => trivial
  | cons c cs ih =>
      refine ⟨?_, ih⟩
      by_cases h : c.isDigit
      · simp [h]
      · simp [h]

lemma digitChar_isDigit : ∀ d : ℕ, d < 10 → (Nat.digitChar d).isDigit = true := by
  decide

lemma mutateSeg_shaped (start stop : ℕ) :
    ∀ (tmpl base : Text) (i : ℕ) (g : RNG), shapedLike tmpl base →
      shapedLike tmpl (mutateSeg start stop i base g).1 := by
  intro tmpl
  induction tmpl with
  | nil =>
      intro base i g hb
      cases base with
      | nil => simpa [mutateSeg] using hb
      | cons c cs => exact hb.elim
  | cons t ts ih =>
      intro base i g hb
      cases base with
      | nil => exact hb.elim
      | cons c cs =>
          obtain ⟨hhead, htail⟩ := hb
          by_cases hcond : start ≤ i ∧ i < stop ∧ c.isDigit
          · simp only [mutateSeg, if_pos hcond]
            refine ⟨?_, ih cs (i + 1) _ htail⟩
            by_cases ht : t.isDigit
            · simp only [if_pos ht]
              apply digitChar_isDigit
              simp only [randInt]
              omega
            · exfalso
              rw [if_neg ht] at hhead
              rw [hhead] at hcond
              exact ht hcond.2.2
          · simp only [mutateSeg, if_neg hcond]
            exact ⟨hhead, ih cs (i + 1) g htail⟩

lemma localVars_shaped (tmpl base : Text) (start stop : ℕ)
    (hb : shapedLike tmpl base) :
    ∀ (num : ℕ) (g : RNG) (t : Text), t ∈ (localVars base start stop num g).1 →
      shapedLike tmpl t := by
  intro num
  induction num with
  | zero => intro g t ht; simp [localVars] at ht
  | succ k ih =>
      intro g t ht
      simp only [localVars, List.mem_cons] at ht
      rcases ht with rfl | ht
      · exact mutateSeg_shaped start stop tmpl base 0 g hb
      · exact ih _ t ht

lemma scoredPool_shaped {V α : Type} (embed : Text → V) (sim : V → V → α)
    (target : V) (tmpl : Text) (start stop num : ℕ) :
    ∀ (cur : List Text) (g : RNG), (∀ b ∈ cur, shapedLike tmpl b) →
      ∀ p ∈ (scoredPool embed sim target start stop num cur g).1,
        shapedLike tmpl p.2 := by
  intro cur
  induction cur with
  | nil => intro g hcur p hp; simp [scoredPool] at hp
  | cons base bs ih =>
      intro g hcur p hp
      simp only [scoredPool, List.mem_append] at hp
      rcases hp with hp | hp
      · obtain ⟨v, hv, hvp⟩ := List.mem_map.mp hp
        rw [← hvp]
        exact localVars_shaped tmpl base start stop (hcur base (by simp)) num g v hv
      · exact ih _ (fun b hb => hcur b (by simp [hb])) p hp

lemma optimizeSegment_shaped {V α : Type} [LinearOrder α] (embed : Text → V)
    (sim : V → V → α) (target : V) (tmpl : Text) (cur : List Text)
    (start stop num : ℕ) (g : RNG) (hcur : ∀ b ∈ cur, shapedLike tmpl b) :
    ∀ t ∈ (optimizeSegment embed sim target cur start stop num g).1,
      shapedLike tmpl t := by
  intro t ht
  obtain ⟨p, hp, hpt⟩ :=
    optimizeSegment_subset embed sim target cur start stop num g t ht
  rw [← hpt]
  exact scoredPool_shaped embed sim target tmpl start stop num cur g hcur p hp

lemma headD_mem {β : Type} (l : List β) (d : β) (h : l ≠ []) : l.headD d ∈ l := by
  cases l with
  | nil => exact absurd rfl h
  | cons a as => simp

/-! ### Evaluation lemmas for constant draw streams

A constant stream is a fixed point of `rngTail`, so a whole segment
mutation leaves the stream unchanged and every sampled variation is the
same string; this lets concrete beams be computed symbolically. -/

lemma localVars_const (base v : Text) (start stop : ℕ) (g : RNG)
    (hm : mutateSeg start stop 0 base g = (v, g)) :
    ∀ num, localVars base start stop num g = (List.replicate num v, g) := by
  intro num
  induction num with
  | zero => simp [localVars]
  | succ k ih => simp [localVars, hm, ih, List.replicate_succ]

lemma scoredPool_const {V α : Type} (embed : Text → V) (sim : V → V → α)
    (target : V) (start stop num : ℕ) (base v : Text) (g : RNG)
    (hm : mutateSeg start stop 0 base g = (v, g)) :
    ∀ m, scoredPool embed sim target start stop num (List.replicate m base) g =
      (List.replicate (m * num) (sim target (embed v), v), g) := by
  intro m
  induction m with
  | zero => simp [scoredPool]
  | succ k ih =>
      rw [List.replicate_succ]
      simp only [scoredPool, localVars_const base v start stop g hm num, ih]
      rw [List.map_replicate, ← List.replicate_add]
      have harith : num + k * num = (k + 1) * num := by ring
      rw [harith]

lemma sortDesc_replicate {α : Type} [LinearOrder α] (p : α × Text) :
    ∀ n, sortDesc (List.replicate n p) = List.replicate n p := by
  intro n
  induction n with
  | zero => simp [sortDesc]
  | succ k ih =>
      rw [List.replicate_succ]
      simp only [sortDesc, ih]
      cases k with
      | zero => simp [insertDesc]
      | succ j => simp [insertDesc, List.replicate_succ]

lemma optimizeSegment_const {V α : Type} [LinearOrder α] (embed : Text → V)
    (sim : V → V → α) (target : V) (start stop num m : ℕ) (base v : Text)
    (g : RNG) (hm : mutateSeg start stop 0 base g = (v, g)) :
    optimizeSegment embed sim target (List.replicate m base) start stop num g =
      (List.replicate (min 5 (m * num)) v, g) := by
  simp only [optimizeSegment,
    scoredPool_const embed sim target start stop num base v g hm m,
    sortDesc_replicate, List.take_replicate, List.map_replicate]

/-- The embedding of the C3 counterexample: only the string the first
segment step deterministically produces scores `1`; everything else
scores `0`. -/
def ceEmbed : Text → ℚ := fun t => if t = "SSN: 555-00-0000".data then 1 else 0

/-- The similarity of the C3 counterexample: the score of a candidate is
just its embedding value (the target is ignored). -/
def ceSim : ℚ → ℚ → ℚ := fun _ v => v

/-- The constant draw stream of the C3 counterexample: every digit drawn
is `5`. -/
def ceRng : RNG := fun _ => 5

lemma ceRng_mut1 :
    mutateSeg 5 8 0 ssnTemplate ceRng = ("SSN: 555-00-0000".data, ceRng) :=
  Prod.ext (by decide) rfl

lemma ceRng_mut2 :
    mutateSeg 9 11 0 ("SSN: 555-00-0000".data) ceRng =
      ("SSN: 555-55-0000".data, ceRng) :=
  Prod.ext (by decide) rfl

lemma ceBeam1 :
    ssnBeam1 ceEmbed ceSim 0 ceRng =
      (List.replicate 5 ("SSN: 555-00-0000".data), ceRng) := by
  have h := optimizeSegment_const ceEmbed ceSim 0 5 8 100 1 ssnTemplate
    ("SSN: 555-00-0000".data) ceRng ceRng_mut1
  have hmin : min 5 (1 * 100) = 5 := by norm_num
  rw [hmin, List.replicate_one] at h
  exact h

lemma ceBeam2 :
    ssnBeam2 ceEmbed ceSim 0 ceRng =
      (List.replicate 5 ("SSN: 555-55-0000".data), ceRng) := by
  have h := optimizeSegment_const ceEmbed ceSim 0 9 11 50 5
    ("SSN: 555-00-0000".data) ("SSN: 555-55-0000".data) ceRng ceRng_mut2
  have hmin : min 5 (5 * 50) = 5 := by norm_num
  rw [hmin] at h
  show optimizeSegment ceEmbed ceSim 0 (ssnBeam1 ceEmbed ceSim 0 ceRng).1 9 11 50
    (ssnBeam1 ceEmbed ceSim 0 ceRng).2 = _
  rw [ceBeam1]
  exact h

lemma ceIncl0 :
    ∀ base ∈ [ssnTemplate],
      ∃ p ∈ (scoredPool (fun _ => (0 : ℚ)) (fun _ _ => (0 : ℚ)) 0 5 8 100
        [ssnTemplate] (fun _ => 0)).1, p.2 = base := by
  have hm : mutateSeg 5 8 0 ssnTemplate (fun _ => 0) =
      (ssnTemplate, fun _ => 0) := Prod.ext (by decide) rfl
  have hp := scoredPool_const (fun _ => (0 : ℚ)) (fun _ _ => (0 : ℚ)) 0 5 8 100
    ssnTemplate ssnTemplate (fun _ => 0) hm 1
  rw [List.replicate_one] at hp
  intro base hb
  simp only [List.mem_singleton] at hb
  subst hb
  refine ⟨((fun _ _ => (0 : ℚ)) 0 ((fun _ => (0 : ℚ)) ssnTemplate), ssnTemplate),
    ?_, rfl⟩
  have hfst : (scoredPool (fun _ => (0 : ℚ)) (fun _ _ => (0 : ℚ)) 0 5 8 100
      [ssnTemplate] (fun _ => 0)).1 =
      List.replicate (1 * 100) ((fun _ _ => (0 : ℚ)) 0
        ((fun _ => (0 : ℚ)) ssnTemplate), ssnTemplate) := by
    rw [hp]
  rw [hfst]
  exact List.mem_replicate.mpr ⟨by norm_num, rfl⟩

/- From this point on, the reconstruction internals are made opaque to
the elaborator: their structural recursions over the literal sample
counts (100, 50) would otherwise explode during unification. The kernel
still evaluates them (e.g. in `decide` proofs). -/
attribute [irreducible] mutateSeg localVars scoredPool insertDesc sortDesc optimizeSegment

/-- Claim C2: for every target vector and both supported data types,
`ReconstructionAttack.execute` re-embeds the returned candidate and
takes its similarity to the target as the result's `confidence` (rather
than any intermediate beam score), succeeds iff that confidence exceeds
`0.9`, and its `extracted_text` is the first — and highest-similarity —
candidate of the final beam, which is never empty. -/
theorem C2_reconstruction_execute {V α : Type} [LinearOrderedField α]
    (embed : Text → V) (sim : V → V → α) (target : V) (data_type : DataType)
    (beam_width : ℕ) (g : RNG) (elapsed : ℚ) :
    (ReconstructionAttack.execute embed sim target data_type beam_width g
        elapsed).1.extracted_text =
      some ((finalBeam embed sim target data_type g).headD []) ∧
    (ReconstructionAttack.execute embed sim target data_type beam_width g
        elapsed).1.confidence =
      sim target (embed ((finalBeam embed sim target data_type g).headD [])) ∧
    ((ReconstructionAttack.execute embed sim target data_type beam_width g
        elapsed).1.success = true ↔
      (9 : α) / 10 <
        (ReconstructionAttack.execute embed sim target data_type beam_width g
          elapsed).1.confidence) ∧
    finalBeam embed sim target data_type g ≠ [] ∧
    (∀ t ∈ finalBeam embed sim target data_type g,
      sim target (embed t) ≤
        sim target (embed ((finalBeam embed sim target data_type g).headD []))) := by
  cases data_type with
  | ssn =>
      have h1 := optimizeSegment_spec embed sim target [ssnTemplate] 5 8 100 g
        (by simp) (by norm_num)
      have h2 := optimizeSegment_spec embed sim target (ssnBeam1 embed sim target g).1
        9 11 50 (ssnBeam1 embed sim target g).2 h1.1 (by norm_num)
      have h3 := optimizeSegment_spec embed sim target (ssnBeam2 embed sim target g).1
        12 16 50 (ssnBeam2 embed sim target g).2 h2.1 (by norm_num)
      exact ⟨rfl, rfl, by simp [ReconstructionAttack.execute, decide_eq_true_eq],
        h3.1, h3.2.1⟩
  | creditcard =>
      have h1 := optimizeSegment_spec embed sim target [ccTemplate] 13 17 50 g
        (by simp) (by norm_num)
      have h2 := optimizeSegment_spec embed sim target (ccBeam1 embed sim target g).1
        18 22 50 (ccBeam1 embed sim target g).2 h1.1 (by norm_num)
      have h3 := optimizeSegment_spec embed sim target (ccBeam2 embed sim target g).1
        23 27 50 (ccBeam2 embed sim target g).2 h2.1 (by norm_num)
      have h4 := optimizeSegment_spec embed sim target (ccBeam3 embed sim target g).1
        28 32 50 (ccBeam3 embed sim target g).2 h3.1 (by norm_num)
      exact ⟨rfl, rfl, by simp [ReconstructionAttack.execute, decide_eq_true_eq],
        h4.1, h4.2.1⟩

/-- Witness for C2 at a concrete `ℚ`-scored instance (`data_type` ssn,
constant embedding and similarity). -/
theorem C2_reconstruction_execute_witness :
    (ReconstructionAttack.execute (fun _ => (0 : ℚ)) (fun _ _ => (0 : ℚ)) 0
        DataType.ssn 5 (fun _ => 0) 0).1.extracted_text =
      some ((finalBeam (fun _ => (0 : ℚ)) (fun _ _ => (0 : ℚ)) 0 DataType.ssn
        (fun _ => 0)).headD []) ∧
    (ReconstructionAttack.execute (fun _ => (0 : ℚ)) (fun _ _ => (0 : ℚ)) 0
        DataType.ssn 5 (fun _ => 0) 0).1.confidence =
      (fun _ _ => (0 : ℚ)) 0 ((fun _ => (0 : ℚ))
        ((finalBeam (fun _ => (0 : ℚ)) (fun _ _ => (0 : ℚ)) 0 DataType.ssn
          (fun _ => 0)).headD [])) ∧
    ((ReconstructionAttack.execute (fun _ => (0 : ℚ)) (fun _ _ => (0 : ℚ)) 0
        DataType.ssn 5 (fun _ => 0) 0).1.success = true ↔
      (9 : ℚ) / 10 <
        (ReconstructionAttack.execute (fun _ => (0 : ℚ)) (fun _ _ => (0 : ℚ)) 0
          DataType.ssn 5 (fun _ => 0) 0).1.confidence) ∧
    finalBeam (fun _ => (0 : ℚ)) (fun _ _ => (0 : ℚ)) 0 DataType.ssn
      (fun _ => 0) ≠ [] ∧
    (∀ t ∈ finalBeam (fun _ => (0 : ℚ)) (fun _ _ => (0 : ℚ)) 0 DataType.ssn
        (fun _ => 0),
      (fun _ _ => (0 : ℚ)) 0 ((fun _ => (0 : ℚ)) t) ≤
        (fun _ _ => (0 : ℚ)) 0 ((fun _ => (0 : ℚ))
          ((finalBeam (fun _ => (0 : ℚ)) (fun _ _ => (0 : ℚ)) 0 DataType.ssn
            (fun _ => 0)).headD []))) :=
  C2_reconstruction_execute (fun _ => (0 : ℚ)) (fun _ _ => (0 : ℚ)) 0
    DataType.ssn 5 (fun _ => 0) 0


/-- Claim C10: every candidate ever held in a reconstruction beam — and
therefore the returned text — preserves the template's literal
characters and keeps every digit position a decimal digit: for `ssn`
every beam string and the result match `SSN: DDD-DD-DDDD`, for
`creditcard` they match `Credit Card: DDDD-DDDD-DDDD-DDDD`
(`shapedLike` of the respective template). -/
theorem C10_template_invariant {V α : Type} [LinearOrder α] (embed : Text → V)
    (sim : V → V → α) (target : V) (g : RNG) :
    (∀ t ∈ (ssnBeam1 embed sim target g).1, shapedLike ssnTemplate t) ∧
    (∀ t ∈ (ssnBeam2 embed sim target g).1, shapedLike ssnTemplate t) ∧
    (∀ t ∈ (ssnBeam3 embed sim target g).1, shapedLike ssnTemplate t) ∧
    shapedLike ssnTemplate (reconstruct_ssn embed sim target g).1 ∧
    (∀ t ∈ (ccBeam1 embed sim target g).1, shapedLike ccTemplate t) ∧
    (∀ t ∈ (ccBeam2 embed sim target g).1, shapedLike ccTemplate t) ∧
    (∀ t ∈ (ccBeam3 embed sim target g).1, shapedLike ccTemplate t) ∧
    (∀ t ∈ (ccBeam4 embed sim target g).1, shapedLike ccTemplate t) ∧
    shapedLike ccTemplate (reconstruct_cc embed sim target g).1 := by
  have hs0 : ∀ b ∈ [ssnTemplate], shapedLike ssnTemplate b := by
    intro b hb
    simp only [List.mem_singleton] at hb
    rw [hb]
    exact shapedLike_refl _
  have hc0 : ∀ b ∈ [ccTemplate], shapedLike ccTemplate b := by
    intro b hb
    simp only [List.mem_singleton] at hb
    rw [hb]
    exact shapedLike_refl _
  have hs1 := optimizeSegment_shaped embed sim target ssnTemplate [ssnTemplate]
    5 8 100 g hs0
  have hs2 := optimizeSegment_shaped embed sim target ssnTemplate
    (ssnBeam1 embed sim target g).1 9 11 50 (ssnBeam1 embed sim target g).2 hs1
  have hs3 := optimizeSegment_shaped embed sim target ssnTemplate
    (ssnBeam2 embed sim target g).1 12 16 50 (ssnBeam2 embed sim target g).2 hs2
  have hn1 := optimizeSegment_spec embed sim target [ssnTemplate] 5 8 100 g
    (by simp) (by norm_num)
  have hn2 := optimizeSegment_spec embed sim target (ssnBeam1 embed sim target g).1
    9 11 50 (ssnBeam1 embed sim target g).2 hn1.1 (by norm_num)
  have hn3 := optimizeSegment_spec embed sim target (ssnBeam2 embed sim target g).1
    12 16 50 (ssnBeam2 embed sim target g).2 hn2.1 (by norm_num)
  have hcc1 := optimizeSegment_shaped embed sim target ccTemplate [ccTemplate]
    13 17 50 g hc0
  have hcc2 := optimizeSegment_shaped embed sim target ccTemplate
    (ccBeam1 embed sim target g).1 18 22 50 (ccBeam1 embed sim target g).2 hcc1
  have hcc3 := optimizeSegment_shaped embed sim target ccTemplate
    (ccBeam2 embed sim target g).1 23 27 50 (ccBeam2 embed sim target g).2 hcc2
  have hcc4 := optimizeSegment_shaped embed sim target ccTemplate
    (ccBeam3 embed sim target g).1 28 32 50 (ccBeam3 embed sim target g).2 hcc3
  have hm1 := optimizeSegment_spec embed sim target [ccTemplate] 13 17 50 g
    (by simp) (by norm_num)
  have hm2 := optimizeSegment_spec embed sim target (ccBeam1 embed sim target g).1
    18 22 50 (ccBeam1 embed sim target g).2 hm1.1 (by norm_num)
  have hm3 := optimizeSegment_spec embed sim target (ccBeam2 embed sim target g).1
    23 27 50 (ccBeam2 embed sim target g).2 hm2.1 (by norm_num)
  have hm4 := optimizeSegment_spec embed sim target (ccBeam3 embed sim target g).1
    28 32 50 (ccBeam3 embed sim target g).2 hm3.1 (by norm_num)
  exact ⟨hs1, hs2, hs3, hs3 _ (headD_mem _ [] hn3.1),
    hcc1, hcc2, hcc3, hcc4, hcc4 _ (headD_mem _ [] hm4.1)⟩

/-- Witness for C10 at a concrete `ℚ`-scored instance. -/
theorem C10_template_invariant_witness :
    (∀ t ∈ (ssnBeam1 (fun _ => (0 : ℚ)) (fun _ _ => (0 : ℚ)) 0 (fun _ => 0)).1,
      shapedLike ssnTemplate t) ∧
    (∀ t ∈ (ssnBeam2 (fun _ => (0 : ℚ)) (fun _ _ => (0 : ℚ)) 0 (fun _ => 0)).1,
      shapedLike ssnTemplate t) ∧
    (∀ t ∈ (ssnBeam3 (fun _ => (0 : ℚ)) (fun _ _ => (0 : ℚ)) 0 (fun _ => 0)).1,
      shapedLike ssnTemplate t) ∧
    shapedLike ssnTemplate
      (reconstruct_ssn (fun _ => (0 : ℚ)) (fun _ _ => (0 : ℚ)) 0 (fun _ => 0)).1 ∧
    (∀ t ∈ (ccBeam1 (fun _ => (0 : ℚ)) (fun _ _ => (0 : ℚ)) 0 (fun _ => 0)).1,
      shapedLike ccTemplate t) ∧
    (∀ t ∈ (ccBeam2 (fun _ => (0 : ℚ)) (fun _ _ => (0 : ℚ)) 0 (fun _ => 0)).1,
      shapedLike ccTemplate t) ∧
    (∀ t ∈ (ccBeam3 (fun _ => (0 : ℚ)) (fun _ _ => (0 : ℚ)) 0 (fun _ => 0)).1,
      shapedLike ccTemplate t) ∧
    (∀ t ∈ (ccBeam4 (fun _ => (0 : ℚ)) (fun _ _ => (0 : ℚ)) 0 (fun _ => 0)).1,
      shapedLike ccTemplate t) ∧
    shapedLike ccTemplate
      (reconstruct_cc (fun _ => (0 : ℚ)) (fun _ _ => (0 : ℚ)) 0 (fun _ => 0)).1 :=
  C10_template_invariant (fun _ => (0 : ℚ)) (fun _ _ => (0 : ℚ)) 0 (fun _ => 0)

/-- Counterexample for claim C3: the best-tracked similarity is NOT
non-decreasing from one segment step to the next. `_optimize_segment`
keeps only freshly mutated strings and drops the unmutated beam
candidates, so a later segment step can lose a strictly better candidate
already found: with every drawn digit `5`, the beam after the area
segment is five copies of `SSN: 555-00-0000` (similarity `1` under
`ceEmbed`/`ceSim`), while the beam after the group segment is five
copies of `SSN: 555-55-0000` (similarity `0`) — a strict decrease. -/
theorem C3_beam_counterexample :
    ceSim 0 (ceEmbed ((ssnBeam2 ceEmbed ceSim 0 ceRng).1.headD [])) <
    ceSim 0 (ceEmbed ((ssnBeam1 ceEmbed ceSim 0 ceRng).1.headD [])) := by
  rw [ceBeam1, ceBeam2]
  show ceSim 0 (ceEmbed ("SSN: 555-55-0000".data)) <
    ceSim 0 (ceEmbed ("SSN: 555-00-0000".data))
  decide

/-- Claim C3 (amended): the similarity of the top-tracked candidate is
non-decreasing across a segment-optimization step only under the
additional assumption that every current beam candidate reappears
(unmutated) in that step's scored pool — which the code does not
guarantee, since the pool holds only fresh random mutations. Under that
assumption, the top candidate of the new beam scores at least every
current candidate. -/
theorem C3_beam_monotone_amended {V α : Type} [LinearOrder α] (embed : Text → V)
    (sim : V → V → α) (target : V) (cur : List Text) (start stop num : ℕ)
    (g : RNG) (hcur : cur ≠ []) (hnum : 0 < num)
    (hincl : ∀ base ∈ cur,
      ∃ p ∈ (scoredPool embed sim target start stop num cur g).1, p.2 = base) :
    ∀ base ∈ cur, sim target (embed base) ≤ sim target
      (embed ((optimizeSegment embed sim target cur start stop num g).1.headD [])) := by
  intro base hb
  obtain ⟨p, hp, hpb⟩ := hincl base hb
  have htag := scoredPool_tag embed sim target start stop num cur g p hp
  have hdom :=
    (optimizeSegment_spec embed sim target cur start stop num g hcur hnum).2.2 p hp
  rw [← hpb, ← htag]
  exact hdom

/-- Witness for the amended C3: with an all-zero draw stream every
mutation reproduces the template, so the inclusion hypothesis holds and
the template's score never decreases across the step. -/
theorem C3_beam_monotone_amended_witness :
    (fun _ _ => (0 : ℚ)) 0 ((fun _ => (0 : ℚ)) ssnTemplate) ≤
      (fun _ _ => (0 : ℚ)) 0 ((fun _ => (0 : ℚ))
        ((optimizeSegment (fun _ => (0 : ℚ)) (fun _ _ => (0 : ℚ)) 0 [ssnTemplate]
          5 8 100 (fun _ => 0)).1.headD [])) :=
  C3_beam_monotone_amended (fun _ => (0 : ℚ)) (fun _ _ => (0 : ℚ)) 0 [ssnTemplate]
    5 8 100 (fun _ => 0) (by simp) (by norm_num) ceIncl0 ssnTemplate (by simp)

/-! ## Pattern recognition attack (`attacks/pattern_attack.py`) -/

/-- Source: the SSN-shaped synthetic samples of `_precompute_centroids`:
`f"SSN: {randint(100,999)}-{randint(10,99)}-{randint(1000,9999)}"`,
rendered without zero padding. -/
def genPatternSSN (g : RNG) : ℕ → List Text × RNG
  | 0 => ([], g)
  | n + 1 =>
      let a := randInt g 100 999
      let b := randInt a.2 10 99
      let c := randInt b.2 1000 9999
      let rest := genPatternSSN c.2 n
      (("SSN: ".data ++ Nat.toDigits 10 a.1 ++ ['-'] ++ Nat.toDigits 10 b.1 ++
        ['-'] ++ Nat.toDigits 10 c.1) :: rest.1, rest.2)

/-- Source: the credit-card-shaped synthetic samples of
`_precompute_centroids`. -/
def genPatternCC (g : RNG) : ℕ → List Text × RNG
  | 0 => ([], g)
  | n + 1 =>
      let a := randInt g 4000 4999
      let b := randInt a.2 1000 9999
      let c := randInt b.2 1000 9999
      let d := randInt c.2 1000 9999
      let rest := genPatternCC d.2 n
      (("Credit Card: ".data ++ Nat.toDigits 10 a.1 ++ ['-'] ++
        Nat.toDigits 10 b.1 ++ ['-'] ++ Nat.toDigits 10 c.1 ++ ['-'] ++
        Nat.toDigits 10 d.1) :: rest.1, rest.2)

/-- Model of `np.mean(vecs, axis=0)`: the elementwise mean of a
nonempty list of equal-dimension vectors. -/
noncomputable def vecMean (vs : List Vec) : Vec :=
  match vs with
  | [] => []
  | v :: rest =>
      (rest.foldl (fun a b => List.zipWith (fun x y => x + y) a b) v).map
        (fun x => x / ((rest.length + 1 : ℕ) : ℝ))

/-- Source: `_precompute_centroids`: 50 synthetic samples per data type
(SSN drawn first, then credit card, from the shared stream),
batch-embedded and averaged into the centroid table. -/
noncomputable def precompute_centroids (embed : Text → Vec) (g : RNG) :
    List (String × Vec) :=
  [("ssn", vecMean ((genPatternSSN g 50).1.map embed)),
   ("creditcard",
    vecMean ((genPatternCC (genPatternSSN g 50).2 50).1.map embed))]

/-- The `extracted_text` of the pattern attack: the f-string
`f"Detected pattern: {detected_type}"` — a label, never reconstructed
content. -/
def patternLabel (k : String) : Text := ("Detected pattern: " ++ k).data

/-- Python's `max(similarities, key=similarities.get)` over the scored
table: the first entry of maximal score (replacement only on a strictly
greater score). -/
def firstMax {α : Type} [LinearOrder α] (e : String × α) :
    List (String × α) → String × α
  | [] => e
  | x :: xs => if e.2 < x.2 then firstMax x xs else firstMax e xs

/-- Source: `PatternRecognitionAttack.execute`: score the target against
every centroid, pick the first maximal data type, report its label,
succeed above `0.8`, `num_queries = 1`. An empty centroid table (where
Python's `max` of an empty dict would raise) is modelled by a trivial
failure result; the precomputed table always has two entries. -/
def PatternRecognitionAttack.execute {V α : Type} [LinearOrderedField α]
    (sim : V → V → α) (centroids : List (String × V)) (target : V)
    (elapsed : ℚ) : AttackResult α :=
  match centroids with
  | [] =>
      { success := false, extracted_text := none, confidence := 0,
        method := "Pattern Recognition Attack", num_queries := 1,
        time_seconds := elapsed }
  | e :: es =>
      { success := decide ((8 : α) / 10 < (firstMax (e.1, sim target e.2)
          (es.map (fun kv => (kv.1, sim target kv.2)))).2)
        extracted_text := some (patternLabel (firstMax (e.1, sim target e.2)
          (es.map (fun kv => (kv.1, sim target kv.2)))).1)
        confidence := (firstMax (e.1, sim target e.2)
          (es.map (fun kv => (kv.1, sim target kv.2)))).2
        method := "Pattern Recognition Attack"
        num_queries := 1
        time_seconds := elapsed }

/-! ### Helper lemmas for the pattern attack -/

lemma firstMax_spec {α : Type} [LinearOrder α] :
    ∀ (l : List (String × α)) (e : String × α),
      (firstMax e l = e ∨ firstMax e l ∈ l) ∧
      e.2 ≤ (firstMax e l).2 ∧ ∀ x ∈ l, x.2 ≤ (firstMax e l).2 := by
  intro l
  induction l with
  | nil => intro e; exact ⟨Or.inl rfl, le_refl _, by simp⟩
  | cons x xs ih =>
      intro e
      by_cases h : e.2 < x.2
      · simp only [firstMax, if_pos h]
        obtain ⟨hm, hle, hall⟩ := ih x
        refine ⟨?_, ?_, ?_⟩
        · rcases hm with hm | hm
          · exact Or.inr (by rw [hm]; exact List.mem_cons_self x xs)
          · exact Or.inr (List.mem_cons_of_mem x hm)
        · exact le_trans (le_of_lt h) hle
        · intro y hy
          rcases List.mem_cons.mp hy with rfl | hy
          · exact hle
          · exact hall y hy
      · simp only [firstMax, if_neg h]
        obtain ⟨hm, hle, hall⟩ := ih e
        refine ⟨?_, ?_, ?_⟩
        · rcases hm with hm | hm
          · exact Or.inl hm
          · exact Or.inr (List.mem_cons_of_mem x hm)
        · exact hle
        · intro y hy
          rcases List.mem_cons.mp hy with rfl | hy
          · exact le_trans (le_of_not_lt h) hle
          · exact hall y hy

lemma pattern_execute_cons_spec {V α : Type} [LinearOrderedField α]
    (sim : V → V → α) (e : String × V) (es : List (String × V)) (target : V)
    (elapsed : ℚ) :
    (∃ kv ∈ e :: es,
      (PatternRecognitionAttack.execute sim (e :: es) target elapsed).confidence =
        sim target kv.2 ∧
      (PatternRecognitionAttack.execute sim (e :: es) target elapsed).extracted_text =
        some (patternLabel kv.1)) ∧
    (∀ kv ∈ e :: es, sim target kv.2 ≤
      (PatternRecognitionAttack.execute sim (e :: es) target elapsed).confidence) ∧
    ((PatternRecognitionAttack.execute sim (e :: es) target elapsed).success = true ↔
      (8 : α) / 10 <
        (PatternRecognitionAttack.execute sim (e :: es) target elapsed).confidence) ∧
    (PatternRecognitionAttack.execute sim (e :: es) target elapsed).num_queries = 1 := by
  obtain ⟨hm, hle, hall⟩ :=
    firstMax_spec (es.map (fun kv => (kv.1, sim target kv.2))) (e.1, sim target e.2)
  refine ⟨?_, ?_, ?_, ?_⟩
  · rcases hm with hm | hm
    · exact ⟨e, List.mem_cons_self e es, by
        simp only [PatternRecognitionAttack.execute, hm], by
        simp only [PatternRecognitionAttack.execute, hm]⟩
    · obtain ⟨kv, hkv, hkveq⟩ := List.mem_map.mp hm
      refine ⟨kv, List.mem_cons_of_mem e hkv, ?_, ?_⟩
      · simp only [PatternRecognitionAttack.execute, ← hkveq]
      · simp only [PatternRecognitionAttack.execute, ← hkveq]
  · intro kv hkv
    rcases List.mem_cons.mp hkv with rfl | hkv
    · exact hle
    · have : (kv.1, sim target kv.2) ∈ es.map (fun kv => (kv.1, sim target kv.2)) :=
        List.mem_map_of_mem _ hkv
      exact hall _ this
  · simp only [PatternRecognitionAttack.execute, decide_eq_true_eq]
  · rfl

lemma genPatternSSN_length (g : RNG) : ∀ n, (genPatternSSN g n).1.length = n := by
  intro n
  induction n generalizing g with
  | zero => simp [genPatternSSN]
  | succ k ih => simp [genPatternSSN, ih]

lemma genPatternCC_length (g : RNG) : ∀ n, (genPatternCC g n).1.length = n := by
  intro n
  induction n generalizing g with
  | zero => simp [genPatternCC]
  | succ k ih => simp [genPatternCC, ih]

lemma foldl_zip_add_replicate (x : ℝ) : ∀ (n : ℕ) (a : ℝ),
    (List.replicate n [x]).foldl (fun u v => List.zipWith (fun p q => p + q) u v)
      [a] = [a + n * x] := by
  intro n
  induction n with
  | zero => intro a; simp
  | succ k ih =>
      intro a
      rw [List.replicate_succ]
      simp only [List.foldl_cons, List.zipWith_cons_cons, List.zipWith_nil_right]
      rw [ih (a + x)]
      congr 1
      push_cast
      ring

lemma vecMean_replicate_one : vecMean (List.replicate 50 [(1 : ℝ)]) = [1] := by
  rw [show (50 : ℕ) = 49 + 1 from rfl, List.replicate_succ]
  simp only [vecMean]
  rw [foldl_zip_add_replicate 1 49 1]
  simp only [List.map_cons, List.map_nil, List.length_replicate]
  norm_num

lemma dot_eq_sum_range (a b : Vec) :
    dot a b = ∑ i ∈ Finset.range (min a.length b.length),
      a.getD i 0 * b.getD i 0 := by
  induction a generalizing b with
  | nil => simp [dot]
  | cons x xs ih =>
      cases b with
      | nil => simp [dot]
      | cons y ys =>
          simp only [dot] at *
          simp only [List.zipWith_cons_cons, List.sum_cons]
          rw [ih ys, List.length_cons, List.length_cons, Nat.succ_min_succ,
            Finset.sum_range_succ']
          simp only [List.getD_cons_succ, List.getD_cons_zero]
          ring

lemma dot_sq_le (a b : Vec) : dot a b ^ 2 ≤ dot a a * dot b b := by
  have hpartsum : ∀ c : Vec, ∑ i ∈ Finset.range (min a.length b.length),
      c.getD i 0 ^ 2 ≤ dot c c := by
    intro c
    rw [dot_eq_sum_range c c, min_self]
    have hsub : Finset.range (min a.length b.length) ∩ Finset.range c.length ⊆
        Finset.range c.length := Finset.inter_subset_right
    calc ∑ i ∈ Finset.range (min a.length b.length), c.getD i 0 ^ 2
        = ∑ i ∈ Finset.range (min a.length b.length), c.getD i 0 * c.getD i 0 := by
          apply Finset.sum_congr rfl
          intro i _
          ring
      _ ≤ ∑ i ∈ Finset.range c.length, c.getD i 0 * c.getD i 0 := ?_
    by_cases hlen : min a.length b.length ≤ c.length
    · refine Finset.sum_le_sum_of_subset_of_nonneg
        (Finset.range_subset.mpr hlen) ?_
      intro i _ _
      exact mul_self_nonneg _
    · push_neg at hlen
      have : ∀ i ∈ Finset.range (min a.length b.length),
          i ∉ Finset.range c.length → c.getD i 0 * c.getD i 0 = 0 := by
        intro i _ hi
        simp only [Finset.mem_range, not_lt] at hi
        rw [List.getD_eq_default _ _ hi]
        ring
      calc ∑ i ∈ Finset.range (min a.length b.length), c.getD i 0 * c.getD i 0
          = ∑ i ∈ Finset.range (min a.length b.length) ∩ Finset.range c.length,
              c.getD i 0 * c.getD i 0 := by
            refine (Finset.sum_subset Finset.inter_subset_left ?_).symm
            intro i hi hni
            apply this i hi
            intro hic
            exact hni (Finset.mem_inter.mpr ⟨hi, hic⟩)
        _ ≤ ∑ i ∈ Finset.range c.length, c.getD i 0 * c.getD i 0 := by
            refine Finset.sum_le_sum_of_subset_of_nonneg hsub ?_
            intro i _ _
            exact mul_self_nonneg _
  have hCS := Finset.sum_mul_sq_le_sq_mul_sq (Finset.range (min a.length b.length))
    (fun i => a.getD i 0) (fun i => b.getD i 0)
  rw [dot_eq_sum_range a b]
  refine le_trans hCS ?_
  exact mul_le_mul (hpartsum a) (hpartsum b)
    (Finset.sum_nonneg fun i _ => sq_nonneg _)
    (le_trans (Finset.sum_nonneg fun i _ => sq_nonneg _) (hpartsum a))

lemma abs_dot_le (a b : Vec) : |dot a b| ≤ norm a * norm b := by
  have h2 := dot_sq_le a b
  have hna : 0 ≤ dot a a := dot_self_nonneg a
  have habs : |dot a b| = Real.sqrt (dot a b ^ 2) := (Real.sqrt_sq_eq_abs _).symm
  rw [habs, norm, norm, ← Real.sqrt_mul hna]
  exact Real.sqrt_le_sqrt h2

lemma compute_similarity_bounds (a b : Vec) (ha : dot a a ≠ 0)
    (hb : dot b b ≠ 0) :
    -1 ≤ compute_similarity a b ∧ compute_similarity a b ≤ 1 := by
  have hpa : 0 < norm a := by
    rw [norm]
    exact Real.sqrt_pos.mpr (lt_of_le_of_ne (dot_self_nonneg a) (Ne.symm ha))
  have hpb : 0 < norm b := by
    rw [norm]
    exact Real.sqrt_pos.mpr (lt_of_le_of_ne (dot_self_nonneg b) (Ne.symm hb))
  have hpos : 0 < norm a * norm b := mul_pos hpa hpb
  have habs : |compute_similarity a b| ≤ 1 := by
    rw [compute_similarity, abs_div, abs_of_pos hpos, div_le_one hpos]
    exact abs_dot_le a b
  exact abs_le.mp habs

lemma precompute_const_one (g : RNG) :
    precompute_centroids (fun _ => [(1 : ℝ)]) g =
      [("ssn", [1]), ("creditcard", [1])] := by
  have h1 : (genPatternSSN g 50).1.map (fun _ => [(1 : ℝ)]) =
      List.replicate 50 [(1 : ℝ)] := by
    rw [List.map_const', genPatternSSN_length]
  have h2 : (genPatternCC (genPatternSSN g 50).2 50).1.map (fun _ => [(1 : ℝ)]) =
      List.replicate 50 [(1 : ℝ)] := by
    rw [List.map_const', genPatternCC_length]
  simp only [precompute_centroids, h1, h2, vecMean_replicate_one]

lemma compute_similarity_negone_one :
    compute_similarity [(-1 : ℝ)] [(1 : ℝ)] = -1 := by
  have hd : dot [(-1 : ℝ)] [(1 : ℝ)] = -1 := by norm_num [dot]
  have hn1 : norm [(-1 : ℝ)] = 1 := by
    have hdd : dot [(-1 : ℝ)] [(-1 : ℝ)] = 1 := by norm_num [dot]
    rw [norm, hdd, Real.sqrt_one]
  have hn2 : norm [(1 : ℝ)] = 1 := by
    have hdd : dot [(1 : ℝ)] [(1 : ℝ)] = 1 := by norm_num [dot]
    rw [norm, hdd, Real.sqrt_one]
  rw [compute_similarity, hd, hn1, hn2]
  norm_num

/-- Counterexample for claim C7: the detection confidence is NOT always
in `[0, 1]` — it is a raw cosine similarity, which is negative whenever
the target points away from the centroids. With a constant embedding
`[1]` both centroids are `[1]`, and on the target `[-1]` the attack's
confidence is `-1 < 0`. -/
theorem C7_pattern_counterexample :
    (PatternRecognitionAttack.execute compute_similarity
      (precompute_centroids (fun _ => [(1 : ℝ)]) (fun _ => 0))
      [(-1 : ℝ)] 0).confidence < 0 := by
  rw [precompute_const_one]
  show (firstMax ("ssn", compute_similarity [(-1 : ℝ)] [(1 : ℝ)])
    ([("creditcard", ([(1 : ℝ)] : Vec))].map
      (fun kv => (kv.1, compute_similarity [(-1 : ℝ)] kv.2)))).2 < 0
  simp only [List.map_cons, List.map_nil, compute_similarity_negone_one]
  simp only [firstMax, lt_irrefl, if_false]
  norm_num

/-- Claim C7 (amended): `PatternRecognitionAttack.execute` on the
precomputed centroid table returns a detected category that is a key of
the table, with `confidence` equal to the cosine similarity to that
category's centroid and maximal among all centroids, `extracted_text`
the human-readable label of the detected category, `success` true iff
the confidence exceeds `0.8`, and `num_queries = 1`; when the target and
the centroids have nonzero norm the confidence lies in `[-1, 1]` (the
cosine range) — not in `[0, 1]` as claimed, see the counterexample. -/
theorem C7_pattern_execute_amended (embed : Text → Vec) (g : RNG)
    (target : Vec) (elapsed : ℚ) (ht : dot target target ≠ 0)
    (hc : ∀ kv ∈ precompute_centroids embed g, dot kv.2 kv.2 ≠ 0) :
    (∃ kv ∈ precompute_centroids embed g,
      (PatternRecognitionAttack.execute compute_similarity
        (precompute_centroids embed g) target elapsed).confidence =
        compute_similarity target kv.2 ∧
      (PatternRecognitionAttack.execute compute_similarity
        (precompute_centroids embed g) target elapsed).extracted_text =
        some (patternLabel kv.1)) ∧
    (∀ kv ∈ precompute_centroids embed g, compute_similarity target kv.2 ≤
      (PatternRecognitionAttack.execute compute_similarity
        (precompute_centroids embed g) target elapsed).confidence) ∧
    ((PatternRecognitionAttack.execute compute_similarity
        (precompute_centroids embed g) target elapsed).success = true ↔
      (8 : ℝ) / 10 < (PatternRecognitionAttack.execute compute_similarity
        (precompute_centroids embed g) target elapsed).confidence) ∧
    (PatternRecognitionAttack.execute compute_similarity
      (precompute_centroids embed g) target elapsed).num_queries = 1 ∧
    -1 ≤ (PatternRecognitionAttack.execute compute_similarity
      (precompute_centroids embed g) target elapsed).confidence ∧
    (PatternRecognitionAttack.execute compute_similarity
      (precompute_centroids embed g) target elapsed).confidence ≤ 1 := by
  have hspec := pattern_execute_cons_spec compute_similarity
    ("ssn", vecMean ((genPatternSSN g 50).1.map embed))
    [("creditcard", vecMean ((genPatternCC (genPatternSSN g 50).2 50).1.map embed))]
    target elapsed
  obtain ⟨⟨kv, hkv, hconf, hext⟩, hdom, hsucc, hq⟩ := hspec
  have hk : kv ∈ precompute_centroids embed g := hkv
  have hbounds := compute_similarity_bounds target kv.2 ht (hc kv hk)
  have hpc : precompute_centroids embed g =
      [("ssn", vecMean ((genPatternSSN g 50).1.map embed)),
       ("creditcard",
        vecMean ((genPatternCC (genPatternSSN g 50).2 50).1.map embed))] := rfl
  refine ⟨⟨kv, hk, hconf, hext⟩, hdom, hsucc, hq, ?_, ?_⟩
  · rw [hpc, hconf]
    exact hbounds.1
  · rw [hpc, hconf]
    exact hbounds.2

/-- Witness for the amended C7: constant unit embedding, unit target. -/
theorem C7_pattern_execute_amended_witness :
    (∃ kv ∈ precompute_centroids (fun _ => [(1 : ℝ)]) (fun _ => 0),
      (PatternRecognitionAttack.execute compute_similarity
        (precompute_centroids (fun _ => [(1 : ℝ)]) (fun _ => 0))
        [(1 : ℝ)] 0).confidence = compute_similarity [(1 : ℝ)] kv.2 ∧
      (PatternRecognitionAttack.execute compute_similarity
        (precompute_centroids (fun _ => [(1 : ℝ)]) (fun _ => 0))
        [(1 : ℝ)] 0).extracted_text = some (patternLabel kv.1)) ∧
    (∀ kv ∈ precompute_centroids (fun _ => [(1 : ℝ)]) (fun _ => 0),
      compute_similarity [(1 : ℝ)] kv.2 ≤
      (PatternRecognitionAttack.execute compute_similarity
        (precompute_centroids (fun _ => [(1 : ℝ)]) (fun _ => 0))
        [(1 : ℝ)] 0).confidence) ∧
    ((PatternRecognitionAttack.execute compute_similarity
        (precompute_centroids (fun _ => [(1 : ℝ)]) (fun _ => 0))
        [(1 : ℝ)] 0).success = true ↔
      (8 : ℝ) / 10 < (PatternRecognitionAttack.execute compute_similarity
        (precompute_centroids (fun _ => [(1 : ℝ)]) (fun _ => 0))
        [(1 : ℝ)] 0).confidence) ∧
    (PatternRecognitionAttack.execute compute_similarity
      (precompute_centroids (fun _ => [(1 : ℝ)]) (fun _ => 0))
      [(1 : ℝ)] 0).num_queries = 1 ∧
    -1 ≤ (PatternRecognitionAttack.execute compute_similarity
      (precompute_centroids (fun _ => [(1 : ℝ)]) (fun _ => 0))
      [(1 : ℝ)] 0).confidence ∧
    (PatternRecognitionAttack.execute compute_similarity
      (precompute_centroids (fun _ => [(1 : ℝ)]) (fun _ => 0))
      [(1 : ℝ)] 0).confidence ≤ 1 :=
  C7_pattern_execute_amended (fun _ => [(1 : ℝ)]) (fun _ => 0) [(1 : ℝ)] 0
    (by norm_num [dot])
    (by
      intro kv hkv
      rw [precompute_const_one] at hkv
      rcases List.mem_cons.mp hkv with h | h
      · rw [h]
        norm_num [dot]
      · rcases List.mem_cons.mp h with h2 | h2
        · rw [h2]
          norm_num [dot]
        · exact absurd h2 (List.not_mem_nil _))
